import Mathlib

/-
Verification development for the CellPress_Crawling_Tool repository
(src/papers_crawler/crawl_text_async_nature.py).

The crawler is embedded shallowly: the external world (listing pages served
per (journal, year, page), article page contents, filesystem writes) is a
record of pure functions, and the orchestration loop of
`crawl_text_nature_async` is translated statement by statement into pure
state-passing functions that additionally emit a trace of observable events
(listing navigations, article navigations, persisted files, pacing sleeps,
logged errors).  Prints and log lines carry no state and are not modelled,
except where a claim is about them (logged errors appear as trace events).
-/

namespace PapersCrawler

/-- Values of the JSON record built by the extractor: the source builds a
Python dict whose values are strings, booleans and integers. -/
inductive JVal where
  | s (v : String)
  | b (v : Bool)
  | i (v : Int)
deriving DecidableEq

/-- Python dict assignment over an association list: assigning to an existing
key replaces its value in place (keeping the key's original position),
otherwise the pair is appended.  `len` of the dict is the list's length. -/
def dictInsert (m : List (String × JVal)) (k : String) (v : JVal) :
    List (String × JVal) :=
  if m.any (fun p => p.1 == k) then
    m.map (fun p => if p.1 == k then (k, v) else p)
  else m ++ [(k, v)]

/-- ASCII whitespace, as stripped by Python's `str.strip()`. -/
def isSpaceChar (c : Char) : Bool :=
  c == ' ' || c == '\t' || c == '\n' || c == '\r' ||
    Char.toNat c == 11 || Char.toNat c == 12

/-- Strip leading and trailing whitespace, modelling Python `str.strip()`. -/
def trimChars (cs : List Char) : List Char :=
  ((cs.dropWhile isSpaceChar).reverse.dropWhile isSpaceChar).reverse

/-- `pre` is a prefix of `s`, modelling Python `str.startswith`. -/
def strStarts (s pre : String) : Bool :=
  pre.data.isPrefixOf s.data

/-- ASCII lowercasing of every character, modelling `str.lower()` on the
ASCII text the denylists match against. -/
def lowerStr (s : String) : String :=
  String.mk (s.data.map Char.toLower)

/-- Substring test over character lists: some drop of `hay` starts with
`needle`.  Models Python's `needle in hay`. -/
def listHasSub (needle hay : List Char) : Bool :=
  (List.range (hay.length + 1)).any (fun i => needle.isPrefixOf (hay.drop i))

/-- Models Python's `needle in hay` on strings. -/
def strOccurs (needle hay : String) : Bool :=
  listHasSub needle.data hay.data

/-- Models `any(skip in text.lower() for skip in needles)`. -/
def lcContainsAny (text : String) (needles : List String) : Bool :=
  needles.any (fun nd => strOccurs nd (lowerStr text))

/-- Characters of `hay` strictly before the first occurrence of `needle`,
or all of `hay` when `needle` does not occur.  Models
`hay.split(needle)[0]` for a nonempty `needle`. -/
def beforeSub (needle : List Char) : List Char → List Char
  | [] => []
  | c :: rest =>
    if needle.isPrefixOf (c :: rest) then []
    else c :: beforeSub needle rest

/-- Decimal digits to a number; fails on any non-digit. -/
def decDigits (cs : List Char) : Option Nat :=
  cs.foldl
    (fun acc c =>
      match acc with
      | none => none
      | some n => if c.isDigit then some (n * 10 + (c.toNat - 48)) else none)
    (some 0)

/-- Models Python `int(s)`: strip surrounding whitespace, optional sign,
then a nonempty run of decimal digits; anything else raises (here: none). -/
def pyParseInt (s : String) : Option Int :=
  match trimChars s.data with
  | [] => none
  | c :: rest =>
    if c = '-' then
      match rest with
      | [] => none
      | _ => (decDigits rest).map (fun n => -(n : Int))
    else if c = '+' then
      match rest with
      | [] => none
      | _ => (decDigits rest).map (fun n => (n : Int))
    else
      match decDigits (c :: rest) with
      | none => none
      | some n => some (n : Int)

/-- Models `int(article_date[:4])` from the year filter. -/
def pyInt4 (s : String) : Option Int :=
  pyParseInt (String.mk (s.data.take 4))

/-- Models `urljoin("https://www.nature.com", article_href)` for the hrefs
the crawler sees: absolute URLs pass through, otherwise the href is resolved
against the Nature origin. -/
def urljoinNature (href : String) : String :=
  if strStarts href "http://" || strStarts href "https://" then href
  else if strStarts href "/" then "https://www.nature.com" ++ href
  else "https://www.nature.com/" ++ href

/-- Characters replaced by underscores in filenames:
`re.sub(r'[<>:"/\\|?*]', '_', title)`. -/
def forbiddenChars : List Char := ['<', '>', ':', '\"', '/', '\\', '|', '?', '*']

/-- Models `re.sub(r'[<>:"/\\|?*]', '_', article_title[:100])`. -/
def sanitizeTitle (t : String) : String :=
  String.mk ((t.data.take 100).map (fun c => if forbiddenChars.contains c then '_' else c))

/-- One text-bearing element found in a section content div: a `p`/`li`
(body text) or an `h3`..`h6` (sub-heading). -/
structure SectElem where
  text : String
  isHeading : Bool
deriving DecidableEq

/-- One `c-article-section__figure` div: the `figcaption` text and the
figure-description div text ("" models an absent/empty element, matching
the source's use of "" defaults). -/
structure FigureSec where
  caption : String
  description : String
deriving DecidableEq

/-- The parts of a parsed Nature article page that
`extract_fulltext_nature_as_json` reads, in source order:
title element text, author list item texts, the `datetime` attribute of the
`datePublished` time element, the `citation_doi` meta content, the abstract
paragraph texts, the `data-title` sections with their content elements
(none models a missing content div), the figure divs, and the reference
items (each an optional reference-text). -/
structure NatureDoc where
  title : Option String
  authorItems : Option (List String)
  dateAttr : Option String
  doiContent : Option String
  abstractParas : Option (List String)
  sections : List (String × Option (List SectElem))
  figures : List FigureSec
  refItems : Option (List (Option String))
deriving DecidableEq

/-- A candidate article card on a listing page, holding exactly the parts
the per-card acceptance code reads: presence of the `c-meta` div, presence
of the open-access label, the `datetime` attribute of the meta time element
(none models a missing element), the `c-card__link` href (none models a
missing link element), and the `c-card__title` text. -/
structure ArticleCard where
  hasMeta : Bool
  hasOaLabel : Bool
  dateAttr : Option String
  linkHref : Option String
  titleText : Option String
deriving DecidableEq

/-- The external world of one run: listing pages keyed by
(journal slug, year, page number) where none models a navigation error
(FetchError raised by `page.goto`), article page contents keyed by URL
where none models a navigation/extraction exception caught inside the
extractor, the timestamp, and whether writing a given file path succeeds. -/
structure World where
  listing : String → Int → Nat → Option (List ArticleCard)
  pageContent : String → Option NatureDoc
  now : String
  saveOk : String → Bool

/- Phrases skipped while collecting author names:
`["view all", "show more", "show less"]`. -/
def authorSkips : List String := ["view all", "show more", "show less"]

/- Phrases skipped while collecting section text. -/
def sectionSkips : List String :=
  ["full size image", "view figure", "download", "cite this",
   "search for articles", "crossref", "pubmed", "google scholar"]

/-- Models the author extraction block: keep nonempty author texts not
containing a skip phrase; if any remain, store them comma-joined. -/
def addAuthors (j : List (String × JVal)) (a : Option (List String)) :
    List (String × JVal) :=
  match a with
  | none => j
  | some items =>
    let authors := items.filter (fun t => !(t == "") && !(lcContainsAny t authorSkips))
    if authors = [] then j
    else dictInsert j "authors" (.s (String.intercalate ", " authors))

/-- Models the abstract block: keep nonempty paragraph texts; if any remain,
store them joined by blank lines. -/
def addAbstract (j : List (String × JVal)) (a : Option (List String)) :
    List (String × JVal) :=
  match a with
  | none => j
  | some ps =>
    let texts := ps.filter (fun t => !(t == ""))
    if texts = [] then j
    else dictInsert j "Abstract" (.s (String.intercalate "\n\n" texts))

/-- Models the per-element text collection inside one `data-title` section:
skip elements whose lowercased text contains a denylist phrase, skip empty
texts, and wrap sub-heading texts in heading markers. -/
def sectionTexts (elems : List SectElem) : List String :=
  elems.filterMap (fun e =>
    if lcContainsAny e.text sectionSkips then none
    else if e.text = "" then none
    else if e.isHeading then some ("\n## " ++ e.text ++ "\n")
    else some e.text)

/-- Models the main-section loop: skip sections with an empty or "Abstract"
`data-title` or a missing content div; otherwise collect texts and, if any,
store them under the section title. -/
def addSections (j : List (String × JVal))
    (secs : List (String × Option (List SectElem))) : List (String × JVal) :=
  secs.foldl
    (fun acc sec =>
      if sec.1 = "" || sec.1 = "Abstract" then acc
      else
        match sec.2 with
        | none => acc
        | some elems =>
          let texts := sectionTexts elems
          if texts = [] then acc
          else dictInsert acc sec.1 (.s (String.intercalate "\n\n" texts)))
    j

/-- Models one figure entry: trim the description at the exact-case
"Full size image" marker when its lowercase form occurs, then combine
caption and description, prefixing the 1-based ordinal. -/
def figureEntry (idx : Nat) (f : FigureSec) : Option String :=
  let d :=
    if strOccurs "full size image" (lowerStr f.description) then
      String.mk (trimChars (beforeSub "Full size image".data f.description.data))
    else f.description
  if !(f.caption == "") || !(d == "") then
    let full := if !(d == "") && !(d == f.caption) then f.caption ++ "\n" ++ d else f.caption
    if full = "" then none else some (toString (idx + 1) ++ ". " ++ full)
  else none

/-- Models the figures block: when figure divs exist, collect their entries
and, if any, store them under "Figures". -/
def addFigures (j : List (String × JVal)) (figs : List FigureSec) :
    List (String × JVal) :=
  if figs = [] then j
  else
    let fd := figs.enum.filterMap (fun p => figureEntry p.1 p.2)
    if fd = [] then j
    else dictInsert j "Figures" (.s (String.intercalate "\n\n" fd))

/-- Models the references block: when the references section exists,
enumerate its items (the ordinal counts every item, including skipped
ones), keep nonempty reference texts, and store them under "References". -/
def addRefs (j : List (String × JVal)) (r : Option (List (Option String))) :
    List (String × JVal) :=
  match r with
  | none => j
  | some items =>
    let refs := items.enum.filterMap (fun p =>
      match p.2 with
      | none => none
      | some t => if t = "" then none else some (toString (p.1 + 1) ++ ". " ++ t))
    if refs = [] then j
    else dictInsert j "References" (.s (String.intercalate "\n\n" refs))

/-- The record `extract_fulltext_nature_as_json` assembles from a parsed
article page, before the final size check: the two bookkeeping entries
("url", "extracted_at") followed by the conditional content insertions in
source order (title, authors, publication date, doi, abstract, sections,
figures, references). -/
def buildJson (now url : String) (doc : NatureDoc) : List (String × JVal) :=
  let j : List (String × JVal) := [("url", .s url), ("extracted_at", .s now)]
  let j :=
    match doc.title with
    | some t => dictInsert j "title" (.s t)
    | none => j
  let j := addAuthors j doc.authorItems
  let j :=
    match doc.dateAttr with
    | some d => if d = "" then j else dictInsert j "publication_date" (.s d)
    | none => j
  let j :=
    match doc.doiContent with
    | some c => dictInsert j "doi" (.s c)
    | none => j
  let j := addAbstract j doc.abstractParas
  let j := addSections j doc.sections
  let j := addFigures j doc.figures
  addRefs j doc.refItems

/-- Embedding of `extract_fulltext_nature_as_json`: navigate to the article
page (any exception, including a navigation FetchError, is caught and
yields none), build the record, and return it only when it holds more than
the two bookkeeping entries (`len(json_data) > 2`); otherwise fail with
none. -/
def extract_fulltext_nature_as_json (w : World) (fulltext_url : String) :
    Option (List (String × JVal)) :=
  match w.pageContent fulltext_url with
  | none => none
  | some doc =>
    let j := buildJson w.now fulltext_url doc
    if 2 < j.length then some j else none

/-- Observable events of one run, in order of occurrence:
listing-page navigation attempts (one per crawl coordinate), a marker when
such a navigation raises, article-page navigations by the extractor, files
persisted, the per-article pacing sleep, a stub-level logged error (the
per-article except handler), a browser launch per journal, and a
journal-level logged error (the per-journal except handler). -/
inductive Event where
  | journalStart (slug : String)
  | coord (slug : String) (year : Int) (page : Nat)
  | coordErr (slug : String) (year : Int) (page : Nat)
  | articleFetch (url : String)
  | persisted (path : String)
  | sleep
  | stubError
  | journalError (slug : String)
deriving DecidableEq

/-- Run configuration of `crawl_text_nature_async`, restricted to the
parameters that influence the orchestration (`keywords` and
`crawl_archives` are read nowhere; `headless` only configures the browser).
`journal_slugs = []` models both None and the empty list (the source only
tests truthiness).  A callback is modelled by whether its invocation
raises: `progress_callback = some f` where `f filename path = true` means
that call raises; `total_progress_callback = some b` where `b = true` means
its single invocation raises. -/
structure Config where
  year_from : Int
  year_to : Int
  out_folder : String
  limit : Option Int
  journal_slugs : List String
  progress_callback : Option (String → String → Bool)
  total_progress_callback : Option Bool

/-- The run-lifetime mutable state of `crawl_text_nature_async`:
`saved_files`, `open_access_articles`, `article_metadata` (path, title,
publish date) and `found_count`. -/
structure RunState where
  saved_files : List String
  open_access_articles : List String
  article_metadata : List (String × String × String)
  found_count : Nat
deriving DecidableEq

/-- The initial run state. -/
def initState : RunState := ⟨[], [], [], 0⟩

/-- Models every `if limit and found_count >= limit` check in the source:
Python truthiness makes `limit = None` and `limit = 0` both skip the
comparison. -/
def limitHit (limit : Option Int) (found : Nat) : Bool :=
  match limit with
  | none => false
  | some k => decide (k ≠ 0) && decide (k ≤ (found : Int))

/-- Embedding of the per-card body of `for art in articles` (after the
limit break, which lives in `processArts`): the acceptance checks in source
order (meta div, open-access label, date element, year parse, year range,
link element, nonempty href), then the try block (article navigation and
extraction; on failure `continue`, skipping the pacing sleep; otherwise add
the run metadata keys, save, and on success append to the run state,
increment the count and invoke the per-file callback, whose exception is
caught by the stub-level handler), then the unconditional pacing sleep at
the end of the loop body. -/
def processArticle (w : World) (cfg : Config) (slug : String) (st : RunState)
    (art : ArticleCard) : RunState × List Event :=
  if !art.hasMeta then (st, [])
  else if !art.hasOaLabel then (st, [])
  else
    match art.dateAttr with
    | none => (st, [])
    | some article_date =>
      match pyInt4 article_date with
      | none => (st, [])
      | some article_year =>
        if !(decide (cfg.year_from ≤ article_year) && decide (article_year ≤ cfg.year_to)) then
          (st, [])
        else
          match art.linkHref with
          | none => (st, [])
          | some article_href =>
            if article_href = "" then (st, [])
            else
              let full_url := urljoinNature article_href
              let article_title :=
                match art.titleText with
                | some t => t
                | none => "Article_" ++ toString (st.found_count + 1)
              match extract_fulltext_nature_as_json w full_url with
              | none => (st, [.articleFetch full_url])
              | some json0 =>
                let json1 := dictInsert json0 "journal" (.s slug)
                let json2 := dictInsert json1 "open_access" (.b true)
                let json3 := dictInsert json2 "year" (.i article_year)
                let _json4 := dictInsert json3 "date" (.s article_date)
                let safe_title := sanitizeTitle article_title
                let json_filename := safe_title ++ "_" ++ toString article_year ++ ".json"
                let json_path := cfg.out_folder ++ "/" ++ slug ++ "/" ++ json_filename
                if w.saveOk json_path then
                  let st' : RunState :=
                    { saved_files := st.saved_files ++ [json_path]
                      open_access_articles := st.open_access_articles ++ [article_title]
                      article_metadata :=
                        st.article_metadata ++ [(json_path, article_title, article_date)]
                      found_count := st.found_count + 1 }
                  let cbEvents :=
                    match cfg.progress_callback with
                    | some f => if f json_filename json_path then [Event.stubError] else []
                    | none => []
                  (st', [.articleFetch full_url, .persisted json_path] ++ cbEvents ++ [.sleep])
                else
                  (st, [.articleFetch full_url, .sleep])

/-- Embedding of the `for art in articles` loop on one listing page,
including the per-article limit break at its head. -/
def processArts (w : World) (cfg : Config) (slug : String) :
    List ArticleCard → RunState → RunState × List Event
  | [], st => (st, [])
  | art :: rest, st =>
    if limitHit cfg.limit st.found_count then (st, [])
    else
      let r1 := processArticle w cfg slug st art
      let r2 := processArts w cfg slug rest r1.1
      (r2.1, r1.2 ++ r2.2)

/-- How the pagination loop of one (journal, year) pair ended: zero
candidate cards on the last page, the limit break, a navigation exception
propagating to the journal handler, or fuel exhaustion (a model artifact
standing for a still-running loop). -/
inductive PageExit where
  | noArticles
  | limitStop
  | fetchRaised
  | fuelOut
deriving DecidableEq

/-- Embedding of the `while True` pagination loop for one (journal, year)
pair: check the limit, navigate to the listing page (a raise propagates to
the journal-level handler), break on zero candidate cards, process the
cards, re-check the limit, then continue with the next page number. -/
def pageLoop (w : World) (cfg : Config) (slug : String) (year : Int) :
    Nat → Nat → RunState → RunState × List Event × PageExit
  | 0, _, st => (st, [], .fuelOut)
  | fuel + 1, page_num, st =>
    if limitHit cfg.limit st.found_count then (st, [], .limitStop)
    else
      match w.listing slug year page_num with
      | none =>
        (st, [.coord slug year page_num, .coordErr slug year page_num], .fetchRaised)
      | some articles =>
        if articles = [] then (st, [.coord slug year page_num], .noArticles)
        else
          let r1 := processArts w cfg slug articles st
          if limitHit cfg.limit r1.1.found_count then
            (r1.1, .coord slug year page_num :: r1.2, .limitStop)
          else
            let r2 := pageLoop w cfg slug year fuel (page_num + 1) r1.1
            (r2.1, .coord slug year page_num :: (r1.2 ++ r2.2.1), r2.2.2)

/-- The years iterated by `for year in range(year_to, year_from - 1, -1)`:
`year_to` down to `year_from`, empty when `year_to < year_from`. -/
def yearsList (year_from year_to : Int) : List Int :=
  (List.range (year_to - year_from + 1).toNat).map (fun i => year_to - (i : Int))

/-- Embedding of the per-journal year loop (inside the journal's try
block): check the limit at the top of each year, run the pagination loop,
and propagate a navigation exception (the returned flag) to the journal
handler, which aborts the remaining years. -/
def yearLoop (w : World) (cfg : Config) (slug : String) (fuel : Nat) :
    List Int → RunState → RunState × List Event × Bool
  | [], st => (st, [], false)
  | year :: rest, st =>
    if limitHit cfg.limit st.found_count then (st, [], false)
    else
      let r1 := pageLoop w cfg slug year fuel 1 st
      match r1.2.2 with
      | .fetchRaised => (r1.1, r1.2.1, true)
      | _ =>
        let r2 := yearLoop w cfg slug fuel rest r1.1
        (r2.1, r1.2.1 ++ r2.2.1, r2.2.2)

/-- Embedding of one iteration of `for slug in journal_slugs`: launch a
browser for the journal, run the year loop inside the try block, log a
journal-level error if an exception reached the journal handler, and close
the browser in the finally block. -/
def runJournal (w : World) (cfg : Config) (fuel : Nat) (slug : String)
    (st : RunState) : RunState × List Event :=
  let r := yearLoop w cfg slug fuel (yearsList cfg.year_from cfg.year_to) st
  (r.1, .journalStart slug :: (r.2.1 ++ if r.2.2 then [.journalError slug] else []))

/-- Embedding of the `for slug in journal_slugs` loop: each journal is
processed in order against the state left by its predecessors, its events
appended to the accumulated trace. -/
def runJournals (w : World) (cfg : Config) (fuel : Nat) :
    List String → RunState × List Event → RunState × List Event
  | [], acc => acc
  | slug :: rest, acc =>
    let r := runJournal w cfg fuel slug acc.1
    runJournals w cfg fuel rest (r.1, acc.2 ++ r.2)

/-- Embedding of `crawl_text_nature_async`: when `journal_slugs` is truthy,
invoke the coarse progress callback once (unprotected: its exception
propagates out of the whole run, modelled by `.error`), then crawl each
journal in order.  The CSV summary and ZIP archive written at run end do
not touch the run state and are not modelled.  The returned state carries
the (saved_files, open_access_articles) return value of the source. -/
def crawl_text_nature_async (w : World) (cfg : Config) (fuel : Nat) :
    Except Unit (RunState × List Event) :=
  if cfg.journal_slugs = [] then .ok (initState, [])
  else
    match cfg.total_progress_callback with
    | some true => .error ()
    | _ => .ok (runJournals w cfg fuel cfg.journal_slugs (initState, []))

/-- The acceptance checks a card must pass before the crawler fetches its
article page, in source order: meta div present, open-access label present,
date element present, year parses, year in `[year_from, year_to]`, link
element present with a nonempty href. -/
def cardEligible (cfg : Config) (a : ArticleCard) : Bool :=
  a.hasMeta && a.hasOaLabel &&
    (match a.dateAttr with
     | none => false
     | some d =>
       match pyInt4 d with
       | none => false
       | some y =>
         decide (cfg.year_from ≤ y) && decide (y ≤ cfg.year_to) &&
           (match a.linkHref with
            | none => false
            | some href => !(href == "")))

/-- The article URL the crawler would fetch for a card, when the card has a
nonempty href. -/
def cardUrl (a : ArticleCard) : Option String :=
  match a.linkHref with
  | none => none
  | some h => if h = "" then none else some (urljoinNature h)

/-- 1 for a persistence event, 0 otherwise. -/
def persistDelta : Event → Nat
  | .persisted _ => 1
  | _ => 0

/-- Number of persisted files recorded in a trace. -/
def persistsIn (es : List Event) : Nat := (es.map persistDelta).sum

/-- Recognizes a listing-navigation (crawl coordinate) event. -/
def isCoordEv : Event → Bool
  | .coord _ _ _ => true
  | _ => false

/-- Recognizes a listing-navigation error event. -/
def isCoordErrEv : Event → Bool
  | .coordErr _ _ _ => true
  | _ => false

/-- Number of pacing sleeps in a trace. -/
def sleepsIn (es : List Event) : Nat := es.countP (fun e => e == Event.sleep)

/-- Walks a trace keeping the running persisted count (starting from `n`)
and demands that every listing navigation happens strictly before the count
reaches the limit `k`. -/
def coordGuard (k : Int) : Nat → List Event → Bool
  | _, [] => true
  | n, e :: es =>
    (!(isCoordEv e) || decide ((n : Int) < k)) && coordGuard k (n + persistDelta e) es

/-- The trace contains no listing navigation. -/
def noCoordEv (es : List Event) : Bool := es.all (fun e => !(isCoordEv e))

/-- The trace contains no listing-navigation error. -/
def noCoordErrEv (es : List Event) : Bool := es.all (fun e => !(isCoordErrEv e))

/-- After the first listing-navigation error in the trace, no further
listing navigation occurs. -/
def coordErrStops : List Event → Bool
  | [] => true
  | e :: es => if isCoordErrEv e then noCoordEv es else coordErrStops es

/-- The trace with the stub-level logged errors removed: the observable
behavior that must not depend on whether a progress callback raises. -/
def obsEvents (es : List Event) : List Event :=
  es.filter (fun e => !(e == Event.stubError))

/- Concrete worlds used to exhibit counterexamples and witnesses. -/

/-- An article page holding only a title beyond the bookkeeping entries. -/
def docA : NatureDoc := ⟨some "T", none, none, none, none, [], [], none⟩

/-- An article page with no extractable content at all. -/
def docEmpty : NatureDoc := ⟨none, none, none, none, none, [], [], none⟩

/-- An eligible open-access card from 2023. -/
def cardA : ArticleCard :=
  ⟨true, true, some "2023-05-01", some "/articles/a1", some "T"⟩

/-- A card without the open-access label (not eligible). -/
def cardNoOa : ArticleCard :=
  ⟨true, false, some "2023-01-01", some "/articles/x", some "X"⟩

/-- A listing world: journal "nphys", year 2023, the same card on pages 1
and 2, nothing on page 3; article extraction always succeeds; saving always
succeeds. -/
def W1 : World :=
  { listing := fun slug y p =>
      if slug == "nphys" && y == 2023 then
        (if p == 1 then some [cardA] else if p == 2 then some [cardA] else some [])
      else some []
    pageContent := fun _ => some docA
    now := "t0"
    saveOk := fun _ => true }

/-- Configuration crawling journal "nphys" for 2023 with no limit and no
callbacks. -/
def cfg1 : Config :=
  ⟨2023, 2023, "papers_nature", none, ["nphys"], none, none⟩

/-- A world where the listing navigation for journal "a", year 2023, page 1
raises, and every other listing is empty. -/
def W3 : World :=
  { listing := fun slug y p =>
      if slug == "a" && y == 2023 && p == 1 then none else some []
    pageContent := fun _ => none
    now := "t0"
    saveOk := fun _ => true }

/-- Configuration crawling journals "a" then "b" over 2022-2023. -/
def cfg3 : Config := ⟨2022, 2023, "out", none, ["a", "b"], none, none⟩

/-- A world where page 1 lists one eligible card whose article page fails
to extract. -/
def W9 : World :=
  { listing := fun slug y p =>
      if slug == "nphys" && y == 2023 && p == 1 then some [cardA] else some []
    pageContent := fun _ => none
    now := "t0"
    saveOk := fun _ => true }

/-- A world whose article extraction fails exactly for the URL of the card
with href "/articles/bad". -/
def W4 : World :=
  { listing := fun _ _ _ => some []
    pageContent := fun u =>
      if u == "https://www.nature.com/articles/bad" then none else some docA
    now := "t0"
    saveOk := fun _ => true }

/-- An eligible card whose article page fails to extract in `W4`. -/
def cardBad : ArticleCard :=
  ⟨true, true, some "2023-02-02", some "/articles/bad", some "B"⟩

/-- An eligible card with href "/articles/g1". -/
def cardG1 : ArticleCard :=
  ⟨true, true, some "2023-03-03", some "/articles/g1", some "G1"⟩

/-- An eligible card with href "/articles/g3". -/
def cardG3 : ArticleCard :=
  ⟨true, true, some "2023-04-04", some "/articles/g3", some "G3"⟩

/-- A listing world whose page 1 holds only the ineligible card and whose
page 2 is empty. -/
def W5 : World :=
  { listing := fun slug y p =>
      if slug == "nphys" && y == 2023 && p == 1 then some [cardNoOa] else some []
    pageContent := fun _ => some docA
    now := "t0"
    saveOk := fun _ => true }

/-- Decidable equality of run results, used to evaluate the embedding at
concrete inputs. -/
instance exceptRunDecEq : DecidableEq (Except Unit (RunState × List Event)) := fun a b =>
  match a, b with
  | .ok x, .ok y =>
    if h : x = y then isTrue (by rw [h]) else isFalse (fun hc => h (Except.ok.inj hc))
  | .error x, .error y => isTrue (by cases x; cases y; rfl)
  | .ok _, .error _ => isFalse (fun hc => Except.noConfusion hc)
  | .error _, .ok _ => isFalse (fun hc => Except.noConfusion hc)

/-- The crawl configuration with a configured limit of 0. -/
def cfgL0 : Config := ⟨2023, 2023, "papers_nature", some 0, ["nphys"], none, none⟩

/-- The crawl configuration with a configured limit of 1. -/
def cfgL1 : Config := ⟨2023, 2023, "papers_nature", some 1, ["nphys"], none, none⟩

/-- An open-access card dated outside the configured year range. -/
def cardOld : ArticleCard :=
  ⟨true, true, some "1999-01-01", some "/articles/old", some "Old"⟩

/-- An open-access card whose date string has no parsable year. -/
def cardNoDate : ArticleCard :=
  ⟨true, true, some "northern-exposure", some "/articles/nd", some "ND"⟩

/-- The run state produced by crawling `W1` under `cfgL1`. -/
def stL1 : RunState :=
  ⟨["papers_nature/nphys/T_2023.json"], ["T"],
   [("papers_nature/nphys/T_2023.json", "T", "2023-05-01")], 1⟩

/-- The event trace produced by crawling `W1` under `cfgL1`. -/
def esL1 : List Event :=
  [.journalStart "nphys", .coord "nphys" 2023 1,
   .articleFetch "https://www.nature.com/articles/a1",
   .persisted "papers_nature/nphys/T_2023.json", .sleep]

/-- The run state produced by crawling `W1` under `cfg1` (no limit). -/
def stD : RunState :=
  ⟨["papers_nature/nphys/T_2023.json", "papers_nature/nphys/T_2023.json"], ["T", "T"],
   [("papers_nature/nphys/T_2023.json", "T", "2023-05-01"),
    ("papers_nature/nphys/T_2023.json", "T", "2023-05-01")], 2⟩

/-- The event trace produced by crawling `W1` under `cfg1` (no limit). -/
def esD : List Event :=
  [.journalStart "nphys", .coord "nphys" 2023 1,
   .articleFetch "https://www.nature.com/articles/a1",
   .persisted "papers_nature/nphys/T_2023.json", .sleep,
   .coord "nphys" 2023 2,
   .articleFetch "https://www.nature.com/articles/a1",
   .persisted "papers_nature/nphys/T_2023.json", .sleep,
   .coord "nphys" 2023 3]

/-- A world serving an article page with no extractable content. -/
def W6 : World :=
  { listing := fun _ _ _ => some []
    pageContent := fun _ => some docEmpty
    now := "t0"
    saveOk := fun _ => true }

end PapersCrawler

set_option maxHeartbeats 1000000

namespace PapersCrawler

theorem processArticle_char (w : World) (cfg : Config) (slug : String)
    (st : RunState) (art : ArticleCard) :
    (cardEligible cfg art = false ∧ processArticle w cfg slug st art = (st, [])) ∨
    (∃ url d y, cardEligible cfg art = true ∧ art.dateAttr = some d ∧
      pyInt4 d = some y ∧ cfg.year_from ≤ y ∧ y ≤ cfg.year_to ∧ cardUrl art = some url ∧
      ((extract_fulltext_nature_as_json w url = none ∧
          processArticle w cfg slug st art = (st, [.articleFetch url])) ∨
       (extract_fulltext_nature_as_json w url ≠ none ∧
        ∃ title fname path,
          title = (match art.titleText with
                   | some t => t
                   | none => "Article_" ++ toString (st.found_count + 1)) ∧
          fname = sanitizeTitle title ++ "_" ++ toString y ++ ".json" ∧
          path = cfg.out_folder ++ "/" ++ slug ++ "/" ++ fname ∧
          ((w.saveOk path = false ∧
            processArticle w cfg slug st art = (st, [.articleFetch url, .sleep])) ∨
           (w.saveOk path = true ∧
            processArticle w cfg slug st art =
              ({ saved_files := st.saved_files ++ [path]
                 open_access_articles := st.open_access_articles ++ [title]
                 article_metadata := st.article_metadata ++ [(path, title, d)]
                 found_count := st.found_count + 1 },
               [.articleFetch url, .persisted path] ++
                 (match cfg.progress_callback with
                  | some f => if f fname path then [Event.stubError] else []
                  | none => []) ++ [.sleep])))))) := by
  obtain ⟨hm, ho, da, lh, tt⟩ := art
  cases hm with
  | false => exact Or.inl ⟨by simp [cardEligible], by simp [processArticle]⟩
  | true =>
  cases ho with
  | false => exact Or.inl ⟨by simp [cardEligible], by simp [processArticle]⟩
  | true =>
  cases da with
  | none => exact Or.inl ⟨by simp [cardEligible], by simp [processArticle]⟩
  | some d =>
  cases hy : pyInt4 d with
  | none =>
    exact Or.inl ⟨by simp [cardEligible, hy], by simp [processArticle, hy]⟩
  | some y =>
  by_cases h1 : cfg.year_from ≤ y
  case neg =>
    exact Or.inl ⟨by simp [cardEligible, hy, h1], by simp [processArticle, hy, h1]⟩
  case pos =>
  by_cases h2 : y ≤ cfg.year_to
  case neg =>
    exact Or.inl ⟨by simp [cardEligible, hy, h2], by simp [processArticle, hy, h2]⟩
  case pos =>
  cases lh with
  | none =>
    exact Or.inl ⟨by simp [cardEligible, hy], by simp [processArticle, hy, h1, h2]⟩
  | some href =>
  by_cases hh : href = ""
  case pos =>
    exact Or.inl ⟨by simp [cardEligible, hy, hh], by simp [processArticle, hy, h1, h2, hh]⟩
  case neg =>
  refine Or.inr ⟨urljoinNature href, d, y, ?_, rfl, hy, h1, h2, ?_, ?_⟩
  · simp [cardEligible, hy, h1, h2, hh]
  · simp [cardUrl, hh]
  cases hex : extract_fulltext_nature_as_json w (urljoinNature href) with
  | none =>
    exact Or.inl ⟨rfl, by simp [processArticle, hy, h1, h2, hh, hex]⟩
  | some j0 =>
  refine Or.inr ⟨by simp [hex],
    (match tt with
     | some t => t
     | none => "Article_" ++ toString (st.found_count + 1)),
    sanitizeTitle (match tt with
     | some t => t
     | none => "Article_" ++ toString (st.found_count + 1)) ++ "_" ++ toString y ++ ".json",
    cfg.out_folder ++ "/" ++ slug ++ "/" ++ (sanitizeTitle (match tt with
     | some t => t
     | none => "Article_" ++ toString (st.found_count + 1)) ++ "_" ++ toString y ++ ".json"),
    rfl, rfl, rfl, ?_⟩
  by_cases hs : w.saveOk (cfg.out_folder ++ "/" ++ slug ++ "/"
      ++ (sanitizeTitle (match tt with
                         | some t => t
                         | none => "Article_" ++ toString (st.found_count + 1))
          ++ "_" ++ toString y ++ ".json")) = true
  case neg =>
    refine Or.inl ⟨by simpa using hs, ?_⟩
    simp [processArticle, hy, h1, h2, hh, hex, hs]
  case pos =>
    refine Or.inr ⟨hs, ?_⟩
    simp [processArticle, hy, h1, h2, hh, hex, hs]

end PapersCrawler

namespace PapersCrawler

theorem processArticle_acct (w : World) (cfg : Config) (slug : String)
    (st : RunState) (art : ArticleCard) :
    (processArticle w cfg slug st art).1.found_count
        = st.found_count + persistsIn (processArticle w cfg slug st art).2
    ∧ persistsIn (processArticle w cfg slug st art).2 ≤ 1
    ∧ noCoordEv (processArticle w cfg slug st art).2 = true
    ∧ noCoordErrEv (processArticle w cfg slug st art).2 = true := by
  rcases processArticle_char w cfg slug st art with ⟨-, he⟩ |
    ⟨url, d, y, -, -, -, -, -, -, hrest⟩
  · rw [he]
    simp [persistsIn, noCoordEv, noCoordErrEv]
  · rcases hrest with ⟨-, he⟩ | ⟨-, title, fname, path, -, -, -, hsv⟩
    · rw [he]
      simp [persistsIn, persistDelta, noCoordEv, noCoordErrEv, isCoordEv, isCoordErrEv]
    · rcases hsv with ⟨-, he⟩ | ⟨-, he⟩ <;> rw [he]
      · simp [persistsIn, persistDelta, noCoordEv, noCoordErrEv, isCoordEv, isCoordErrEv]
      · rcases hpc : cfg.progress_callback with _ | f
        · simp [hpc, persistsIn, persistDelta, noCoordEv, noCoordErrEv, isCoordEv, isCoordErrEv]
        · by_cases hf : f fname path = true <;>
            simp [hpc, hf, persistsIn, persistDelta, noCoordEv, noCoordErrEv, isCoordEv, isCoordErrEv]

theorem processArticle_skip (w : World) (cfg : Config) (slug : String) (art : ArticleCard)
    (hfail : ∀ url, cardUrl art = some url →
      extract_fulltext_nature_as_json w url = none) :
    ∀ st, (processArticle w cfg slug st art).1 = st := by
  intro st
  rcases processArticle_char w cfg slug st art with ⟨-, he⟩ |
    ⟨url, d, y, -, -, -, -, -, hu, hrest⟩
  · rw [he]
  · rcases hrest with ⟨-, he⟩ | ⟨hne, -, -, -, -, -, -, -⟩
    · rw [he]
    · exact absurd (hfail url hu) hne

end PapersCrawler

namespace PapersCrawler

theorem processArticle_hist (w : World) (cfg : Config) (slug : String) (art : ArticleCard)
    (s1 s2 : RunState) (h : s1.found_count = s2.found_count) :
    ∃ ev fs oa md n,
      processArticle w cfg slug s1 art =
        ({ saved_files := s1.saved_files ++ fs
           open_access_articles := s1.open_access_articles ++ oa
           article_metadata := s1.article_metadata ++ md
           found_count := s1.found_count + n }, ev) ∧
      processArticle w cfg slug s2 art =
        ({ saved_files := s2.saved_files ++ fs
           open_access_articles := s2.open_access_articles ++ oa
           article_metadata := s2.article_metadata ++ md
           found_count := s2.found_count + n }, ev) := by
  rcases processArticle_char w cfg slug s1 art with ⟨hel1, he1⟩ |
    ⟨url1, d1, y1, hel1, hd1, hy1, -, -, hu1, hrest1⟩ <;>
  rcases processArticle_char w cfg slug s2 art with ⟨hel2, he2⟩ |
    ⟨url2, d2, y2, hel2, hd2, hy2, -, -, hu2, hrest2⟩
  · exact ⟨[], [], [], [], 0, by simp [he1], by simp [he2]⟩
  · rw [hel1] at hel2
    simp at hel2
  · rw [hel2] at hel1
    simp at hel1
  · rw [hd1] at hd2
    injection hd2 with hdd
    subst hdd
    rw [hy1] at hy2
    injection hy2 with hyy
    subst hyy
    rw [hu1] at hu2
    injection hu2 with huu
    subst huu
    rcases hrest1 with ⟨hex1, he1⟩ | ⟨hne1, title1, fname1, path1, ht1, hf1, hp1, hsv1⟩ <;>
    rcases hrest2 with ⟨hex2, he2⟩ | ⟨hne2, title2, fname2, path2, ht2, hf2, hp2, hsv2⟩
    · exact ⟨[.articleFetch url1], [], [], [], 0, by simp [he1], by simp [he2]⟩
    · exact absurd hex1 hne2
    · exact absurd hex2 hne1
    · have hT : title2 = title1 := by rw [ht2, ht1, ← h]
      subst hT
      have hF : fname2 = fname1 := by rw [hf2, hf1]
      subst hF
      have hP : path2 = path1 := by rw [hp2, hp1]
      subst hP
      rcases hsv1 with ⟨hs1, he1⟩ | ⟨hs1, he1⟩ <;> rcases hsv2 with ⟨hs2, he2⟩ | ⟨hs2, he2⟩
      · exact ⟨[.articleFetch url1, .sleep], [], [], [], 0, by simp [he1], by simp [he2]⟩
      · rw [hs1] at hs2
        simp at hs2
      · rw [hs2] at hs1
        simp at hs1
      · exact ⟨_, [path2], [title2], [(path2, title2, d1)], 1, he1, he2⟩

end PapersCrawler

namespace PapersCrawler

theorem processArticle_cb (w : World) (cfg : Config) (slug : String) (st : RunState)
    (art : ArticleCard) (p1 p2 : Option (String → String → Bool)) (t1 t2 : Option Bool) :
    (processArticle w { cfg with progress_callback := p1, total_progress_callback := t1 } slug st art).1
      = (processArticle w { cfg with progress_callback := p2, total_progress_callback := t2 } slug st art).1
    ∧ obsEvents (processArticle w { cfg with progress_callback := p1, total_progress_callback := t1 } slug st art).2
      = obsEvents (processArticle w { cfg with progress_callback := p2, total_progress_callback := t2 } slug st art).2 := by
  have hce : cardEligible { cfg with progress_callback := p1, total_progress_callback := t1 } art
      = cardEligible { cfg with progress_callback := p2, total_progress_callback := t2 } art := rfl
  rcases processArticle_char w { cfg with progress_callback := p1, total_progress_callback := t1 }
      slug st art with ⟨hel1, he1⟩ | ⟨url1, d1, y1, hel1, hd1, hy1, -, -, hu1, hrest1⟩ <;>
  rcases processArticle_char w { cfg with progress_callback := p2, total_progress_callback := t2 }
      slug st art with ⟨hel2, he2⟩ | ⟨url2, d2, y2, hel2, hd2, hy2, -, -, hu2, hrest2⟩
  · rw [he1, he2]
    exact ⟨rfl, rfl⟩
  · rw [hce, hel2] at hel1
    simp at hel1
  · rw [← hce, hel1] at hel2
    simp at hel2
  · rw [hd1] at hd2
    injection hd2 with hdd
    subst hdd
    rw [hy1] at hy2
    injection hy2 with hyy
    subst hyy
    rw [hu1] at hu2
    injection hu2 with huu
    subst huu
    rcases hrest1 with ⟨hex1, he1⟩ | ⟨hne1, title1, fname1, path1, ht1, hf1, hp1, hsv1⟩ <;>
    rcases hrest2 with ⟨hex2, he2⟩ | ⟨hne2, title2, fname2, path2, ht2, hf2, hp2, hsv2⟩
    · rw [he1, he2]
      exact ⟨rfl, rfl⟩
    · exact absurd hex1 hne2
    · exact absurd hex2 hne1
    · have hT : title2 = title1 := by rw [ht2, ht1]
      subst hT
      have hF : fname2 = fname1 := by rw [hf2, hf1]
      subst hF
      have hP : path2 = path1 := by rw [hp2, hp1]
      subst hP
      rcases hsv1 with ⟨hs1, he1⟩ | ⟨hs1, he1⟩ <;> rcases hsv2 with ⟨hs2, he2⟩ | ⟨hs2, he2⟩
      · rw [he1, he2]
        exact ⟨rfl, rfl⟩
      · rw [hs1] at hs2
        simp at hs2
      · rw [hs2] at hs1
        simp at hs1
      · rw [he1, he2]
        refine ⟨rfl, ?_⟩
        dsimp only
        rcases p1 with _ | f1 <;> rcases p2 with _ | f2
        · rfl
        · by_cases hb : f2 fname2 path2 = true <;>
            simp [obsEvents, hb]
        · by_cases hb : f1 fname2 path2 = true <;>
            simp [obsEvents, hb]
        · by_cases hb1 : f1 fname2 path2 = true <;> by_cases hb2 : f2 fname2 path2 = true <;>
            simp [obsEvents, hb1, hb2]

end PapersCrawler

namespace PapersCrawler

theorem persistsIn_append (a b : List Event) :
    persistsIn (a ++ b) = persistsIn a + persistsIn b := by
  simp [persistsIn]

theorem noCoordEv_append (a b : List Event) :
    noCoordEv (a ++ b) = (noCoordEv a && noCoordEv b) := by
  simp [noCoordEv, List.all_append]

theorem noCoordErrEv_append (a b : List Event) :
    noCoordErrEv (a ++ b) = (noCoordErrEv a && noCoordErrEv b) := by
  simp [noCoordErrEv, List.all_append]

theorem coordGuard_of_noCoord (k : Int) :
    ∀ (es : List Event) (n : Nat), noCoordEv es = true → coordGuard k n es = true := by
  intro es
  induction es with
  | nil => intro n _; rfl
  | cons e rest ih =>
    intro n h
    simp only [noCoordEv, List.all_cons, Bool.and_eq_true] at h
    simp only [coordGuard, h.1, Bool.not_true, Bool.not_false, Bool.true_or, Bool.true_and]
    exact ih _ (by simpa [noCoordEv] using h.2)

theorem coordGuard_append (k : Int) :
    ∀ (a b : List Event) (n : Nat),
      coordGuard k n (a ++ b) = (coordGuard k n a && coordGuard k (n + persistsIn a) b) := by
  intro a
  induction a with
  | nil => intro b n; simp [coordGuard, persistsIn]
  | cons e rest ih =>
    intro b n
    simp only [List.cons_append, coordGuard, List.append_eq, ih, persistsIn, List.map_cons,
      List.sum_cons, Bool.and_assoc, Nat.add_assoc]

theorem limitHit_false_lt {k : Int} {n : Nat} (hk : k ≠ 0)
    (h : limitHit (some k) n = false) : (n : Int) < k := by
  simp only [limitHit, Bool.and_eq_false_iff, decide_eq_false_iff_not] at h
  rcases h with h | h
  · exact absurd hk (by simpa using h)
  · omega

theorem processArts_acct (w : World) (cfg : Config) (slug : String) :
    ∀ (arts : List ArticleCard) (st : RunState),
      (processArts w cfg slug arts st).1.found_count
          = st.found_count + persistsIn (processArts w cfg slug arts st).2
      ∧ noCoordEv (processArts w cfg slug arts st).2 = true
      ∧ noCoordErrEv (processArts w cfg slug arts st).2 = true := by
  intro arts
  induction arts with
  | nil =>
    intro st
    simp [processArts, persistsIn, noCoordEv, noCoordErrEv]
  | cons a rest ih =>
    intro st
    unfold processArts
    by_cases hl : limitHit cfg.limit st.found_count = true
    · simp [hl, persistsIn, noCoordEv, noCoordErrEv]
    · simp only [Bool.not_eq_true] at hl
      simp only [hl, Bool.false_eq_true, if_false]
      obtain ⟨h1, h2, h3, h4⟩ := processArticle_acct w cfg slug st a
      obtain ⟨g1, g2, g3⟩ := ih (processArticle w cfg slug st a).1
      refine ⟨?_, ?_, ?_⟩
      · simp only [persistsIn_append]
        omega
      · simp [noCoordEv_append, h3, g2]
      · simp [noCoordErrEv_append, h4, g3]

theorem processArts_bound (w : World) (cfg : Config) (slug : String) (k : Int)
    (hcfg : cfg.limit = some k) (hk : k ≠ 0) :
    ∀ (arts : List ArticleCard) (st : RunState),
      ((st.found_count : Int) ≤ k) →
      (((processArts w cfg slug arts st).1.found_count : Int) ≤ k) := by
  intro arts
  induction arts with
  | nil => intro st h; simpa [processArts] using h
  | cons a rest ih =>
    intro st h
    unfold processArts
    by_cases hl : limitHit cfg.limit st.found_count = true
    · simpa [hl] using h
    · simp only [Bool.not_eq_true] at hl
      simp only [hl, Bool.false_eq_true, if_false]
      obtain ⟨h1, h2, -, -⟩ := processArticle_acct w cfg slug st a
      have hlt : (st.found_count : Int) < k := by
        rw [hcfg] at hl
        exact limitHit_false_lt hk hl
      refine ih (processArticle w cfg slug st a).1 ?_
      omega

theorem processArts_mid_skip (w : World) (cfg : Config) (slug : String) (bad : ArticleCard)
    (hb : ∀ s, (processArticle w cfg slug s bad).1 = s) :
    ∀ (l1 l2 : List ArticleCard) (st : RunState),
      (processArts w cfg slug (l1 ++ bad :: l2) st).1
        = (processArts w cfg slug (l1 ++ l2) st).1 := by
  intro l1
  induction l1 with
  | nil =>
    intro l2 st
    simp only [List.nil_append]
    unfold processArts
    by_cases hl : limitHit cfg.limit st.found_count = true
    · cases l2 with
      | nil => simp [processArts, hl]
      | cons c cs => simp [processArts, hl]
    · simp only [Bool.not_eq_true] at hl
      simp only [hl, Bool.false_eq_true, if_false]
      rw [hb st]
      cases l2 <;> rfl
  | cons a l1' ih =>
    intro l2 st
    simp only [List.cons_append]
    unfold processArts
    by_cases hl : limitHit cfg.limit st.found_count = true
    · simp [hl]
    · simp only [Bool.not_eq_true] at hl
      simp only [hl, Bool.false_eq_true, if_false]
      exact ih l2 (processArticle w cfg slug st a).1

theorem processArticle_ineligible (w : World) (cfg : Config) (slug : String)
    (st : RunState) (art : ArticleCard) (h : cardEligible cfg art = false) :
    processArticle w cfg slug st art = (st, []) := by
  rcases processArticle_char w cfg slug st art with ⟨-, he⟩ |
    ⟨url, d, y, hel, -, -, -, -, -, -⟩
  · exact he
  · rw [h] at hel
    simp at hel

theorem processArts_ineligible (w : World) (cfg : Config) (slug : String) :
    ∀ (arts : List ArticleCard) (st : RunState),
      (∀ a ∈ arts, cardEligible cfg a = false) →
      processArts w cfg slug arts st = (st, []) := by
  intro arts
  induction arts with
  | nil => intro st _; rfl
  | cons a rest ih =>
    intro st h
    unfold processArts
    by_cases hl : limitHit cfg.limit st.found_count = true
    · simp [hl]
    · simp only [Bool.not_eq_true] at hl
      simp only [hl, Bool.false_eq_true, if_false]
      simp [processArticle_ineligible w cfg slug st a (h a (by simp)),
        ih st (fun x hx => h x (by simp [hx]))]

end PapersCrawler

namespace PapersCrawler

theorem pageLoop_acct (w : World) (cfg : Config) (slug : String) (year : Int) :
    ∀ (fuel p : Nat) (st : RunState),
      (pageLoop w cfg slug year fuel p st).1.found_count
        = st.found_count + persistsIn (pageLoop w cfg slug year fuel p st).2.1 := by
  intro fuel
  induction fuel with
  | zero => intro p st; simp [pageLoop, persistsIn]
  | succ f ih =>
    intro p st
    unfold pageLoop
    by_cases hl : limitHit cfg.limit st.found_count = true
    · simp [hl, persistsIn]
    · simp only [Bool.not_eq_true] at hl
      simp only [hl, Bool.false_eq_true, if_false]
      cases hls : w.listing slug year p with
      | none => simp [persistsIn, persistDelta]
      | some articles =>
        by_cases ha : articles = []
        · simp [ha, persistsIn, persistDelta]
        · simp only [ha, if_false]
          obtain ⟨a1, -, -⟩ := processArts_acct w cfg slug articles st
          by_cases hl2 :
              limitHit cfg.limit (processArts w cfg slug articles st).1.found_count = true
          · simp only [hl2, if_true]
            simp only [persistsIn, List.map_cons, List.sum_cons, persistDelta]
            simp only [persistsIn] at a1
            omega
          · simp only [hl2, Bool.false_eq_true, if_false]
            have h2 := ih (p + 1) (processArts w cfg slug articles st).1
            simp only [persistsIn, List.map_cons, List.sum_cons, List.map_append,
              List.sum_append, persistDelta]
            simp only [persistsIn] at a1 h2
            omega

end PapersCrawler

namespace PapersCrawler

theorem not_mem_of_noCoord {es : List Event} (h : noCoordEv es = true)
    (s : String) (y : Int) (p : Nat) : Event.coord s y p ∉ es := by
  intro hm
  have := List.all_eq_true.mp h _ hm
  simp [isCoordEv] at this

theorem coordErrStops_of_noErr : ∀ es : List Event,
    noCoordErrEv es = true → coordErrStops es = true := by
  intro es
  induction es with
  | nil => intro _; rfl
  | cons e rest ih =>
    intro h
    simp only [noCoordErrEv, List.all_cons, Bool.and_eq_true] at h
    simp only [coordErrStops, Bool.not_eq_true'] at h ⊢
    rw [if_neg (by simp [h.1])]
    exact ih (by simpa [noCoordErrEv] using h.2)

theorem coordErrStops_append_noErr : ∀ a b : List Event,
    noCoordErrEv a = true → coordErrStops (a ++ b) = coordErrStops b := by
  intro a
  induction a with
  | nil => intro b _; rfl
  | cons e rest ih =>
    intro b h
    simp only [noCoordErrEv, List.all_cons, Bool.and_eq_true] at h
    simp only [List.cons_append, coordErrStops]
    rw [if_neg (by simp [Bool.not_eq_true'] at h ⊢; exact h.1)]
    exact ih b (by simpa [noCoordErrEv] using h.2)

theorem coordErrStops_append_noCoord : ∀ a b : List Event,
    coordErrStops a = true → noCoordEv b = true → coordErrStops (a ++ b) = true := by
  intro a
  induction a with
  | nil =>
    intro b _ hb
    induction b with
    | nil => rfl
    | cons e rest ih =>
      simp only [noCoordEv, List.all_cons, Bool.and_eq_true] at hb
      simp only [List.nil_append, coordErrStops]
      split
      · simpa [noCoordEv] using hb.2
      · exact ih (by simpa [noCoordEv] using hb.2)
  | cons e rest ih =>
    intro b ha hb
    simp only [coordErrStops] at ha
    simp only [List.cons_append, coordErrStops]
    split at ha
    · rw [if_pos (by assumption)]
      rw [List.append_eq, noCoordEv_append]
      simp only [Bool.and_eq_true]
      exact ⟨ha, hb⟩
    · rw [if_neg (by assumption)]
      exact ih b ha hb

theorem pageLoop_bound (w : World) (cfg : Config) (slug : String) (year : Int) (k : Int)
    (hcfg : cfg.limit = some k) (hk : k ≠ 0) :
    ∀ (fuel p : Nat) (st : RunState), ((st.found_count : Int) ≤ k) →
      (((pageLoop w cfg slug year fuel p st).1.found_count : Int) ≤ k) := by
  intro fuel
  induction fuel with
  | zero => intro p st h; simpa [pageLoop] using h
  | succ f ih =>
    intro p st h
    unfold pageLoop
    by_cases hl : limitHit cfg.limit st.found_count = true
    · simpa [hl] using h
    · simp only [Bool.not_eq_true] at hl
      simp only [hl, Bool.false_eq_true, if_false]
      cases hls : w.listing slug year p with
      | none => simpa using h
      | some articles =>
        by_cases ha : articles = []
        · simpa [ha] using h
        · simp only [ha, if_false]
          have hb := processArts_bound w cfg slug k hcfg hk articles st h
          by_cases hl2 :
              limitHit cfg.limit (processArts w cfg slug articles st).1.found_count = true
          · simpa [hl2] using hb
          · simp only [hl2, Bool.false_eq_true, if_false]
            exact ih (p + 1) (processArts w cfg slug articles st).1 hb

theorem pageLoop_guard (w : World) (cfg : Config) (slug : String) (year : Int) (k : Int)
    (hcfg : cfg.limit = some k) (hk : k ≠ 0) :
    ∀ (fuel p : Nat) (st : RunState),
      coordGuard k st.found_count (pageLoop w cfg slug year fuel p st).2.1 = true := by
  intro fuel
  induction fuel with
  | zero => intro p st; rfl
  | succ f ih =>
    intro p st
    unfold pageLoop
    by_cases hl : limitHit cfg.limit st.found_count = true
    · simp [hl, coordGuard]
    · simp only [Bool.not_eq_true] at hl
      have hlt : (st.found_count : Int) < k := by
        rw [hcfg] at hl
        exact limitHit_false_lt hk hl
      simp only [hl, Bool.false_eq_true, if_false]
      cases hls : w.listing slug year p with
      | none =>
        simp [coordGuard, isCoordEv, persistDelta, hlt]
      | some articles =>
        by_cases ha : articles = []
        · simp [ha, coordGuard, isCoordEv, persistDelta, hlt]
        · simp only [ha, if_false]
          obtain ⟨a1, a2, -⟩ := processArts_acct w cfg slug articles st
          by_cases hl2 :
              limitHit cfg.limit (processArts w cfg slug articles st).1.found_count = true
          · simp only [hl2, if_true]
            simp only [coordGuard, isCoordEv, persistDelta, Bool.not_true, Bool.false_or,
              Bool.and_eq_true, decide_eq_true_eq]
            exact ⟨hlt, by simpa using coordGuard_of_noCoord k _ (st.found_count + 0) a2⟩
          · simp only [hl2, Bool.false_eq_true, if_false]
            simp only [coordGuard, isCoordEv, persistDelta, Bool.not_true, Bool.false_or,
              Bool.and_eq_true, decide_eq_true_eq]
            refine ⟨hlt, ?_⟩
            rw [coordGuard_append]
            simp only [Bool.and_eq_true]
            constructor
            · exact coordGuard_of_noCoord k _ _ a2
            · have := ih (p + 1) (processArts w cfg slug articles st).1
              have hn : st.found_count + 0 + persistsIn (processArts w cfg slug articles st).2
                  = (processArts w cfg slug articles st).1.found_count := by omega
              rw [hn]
              exact this

theorem pageLoop_coords (w : World) (cfg : Config) (slug : String) (year : Int) :
    ∀ (fuel p : Nat) (st : RunState) (s' : String) (y' : Int) (p' : Nat),
      Event.coord s' y' p' ∈ (pageLoop w cfg slug year fuel p st).2.1 →
      s' = slug ∧ y' = year ∧ p ≤ p' := by
  intro fuel
  induction fuel with
  | zero => intro p st s' y' p' hm; simp [pageLoop] at hm
  | succ f ih =>
    intro p st s' y' p' hm
    unfold pageLoop at hm
    by_cases hl : limitHit cfg.limit st.found_count = true
    · simp [hl] at hm
    · simp only [Bool.not_eq_true] at hl
      simp only [hl, Bool.false_eq_true, if_false] at hm
      cases hls : w.listing slug year p with
      | none =>
        rw [hls] at hm
        simp only [List.mem_cons, List.mem_singleton] at hm
        rcases hm with hm | hm | hm
        · injection hm with hs hy hp
          subst hs; subst hy; subst hp
          exact ⟨rfl, rfl, Nat.le_refl _⟩
        · exact absurd hm (by simp)
        · exact absurd hm (by simp)
      | some articles =>
        rw [hls] at hm
        by_cases ha : articles = []
        · simp only [ha, if_true] at hm
          simp only [List.mem_singleton] at hm
          injection hm with hs hy hp
          subst hs; subst hy; subst hp
          exact ⟨rfl, rfl, Nat.le_refl _⟩
        · simp only [ha, if_false] at hm
          obtain ⟨-, a2, -⟩ := processArts_acct w cfg slug articles st
          by_cases hl2 :
              limitHit cfg.limit (processArts w cfg slug articles st).1.found_count = true
          · simp only [hl2, if_true, List.mem_cons] at hm
            rcases hm with hm | hm
            · injection hm with hs hy hp
              subst hs; subst hy; subst hp
              exact ⟨rfl, rfl, Nat.le_refl _⟩
            · exact absurd hm (not_mem_of_noCoord a2 s' y' p')
          · simp only [hl2, Bool.false_eq_true, if_false, List.mem_cons, List.mem_append] at hm
            rcases hm with hm | hm | hm
            · injection hm with hs hy hp
              subst hs; subst hy; subst hp
              exact ⟨rfl, rfl, Nat.le_refl _⟩
            · exact absurd hm (not_mem_of_noCoord a2 s' y' p')
            · obtain ⟨g1, g2, g3⟩ := ih (p + 1) (processArts w cfg slug articles st).1 s' y' p' hm
              exact ⟨g1, g2, by omega⟩

end PapersCrawler

namespace PapersCrawler

theorem pageLoop_stop (w : World) (cfg : Config) (slug : String) (year : Int)
    (p p' : Nat) (hsp : w.listing slug year p = some []) (hpp : p < p') :
    ∀ (fuel q : Nat) (st : RunState), q ≤ p →
      Event.coord slug year p' ∉ (pageLoop w cfg slug year fuel q st).2.1 := by
  intro fuel
  induction fuel with
  | zero => intro q st _; simp [pageLoop]
  | succ f ih =>
    intro q st hq
    unfold pageLoop
    by_cases hl : limitHit cfg.limit st.found_count = true
    · simp [hl]
    · simp only [Bool.not_eq_true] at hl
      simp only [hl, Bool.false_eq_true, if_false]
      cases hls : w.listing slug year q with
      | none =>
        intro hm
        simp only [List.mem_cons, List.mem_singleton] at hm
        rcases hm with hm | hm | hm
        · injection hm with hs hy hp2
          omega
        · exact absurd hm (by simp)
        · exact absurd hm (by simp)
      | some articles =>
        by_cases ha : articles = []
        · simp only [ha, if_true]
          intro hm
          simp only [List.mem_singleton] at hm
          injection hm with hs hy hp2
          omega
        · have hqp : q < p := by
            rcases Nat.lt_or_ge q p with h | h
            · exact h
            · exfalso
              have hqq : q = p := by omega
              rw [hqq, hsp] at hls
              injection hls with hc
              exact ha hc.symm
          simp only [ha, if_false]
          obtain ⟨-, a2, -⟩ := processArts_acct w cfg slug articles st
          by_cases hl2 :
              limitHit cfg.limit (processArts w cfg slug articles st).1.found_count = true
          · simp only [hl2, if_true]
            intro hm
            simp only [List.mem_cons] at hm
            rcases hm with hm | hm
            · injection hm with hs hy hp2
              omega
            · exact absurd hm (not_mem_of_noCoord a2 slug year p')
          · simp only [hl2, Bool.false_eq_true, if_false]
            intro hm
            simp only [List.mem_cons, List.mem_append] at hm
            rcases hm with hm | hm | hm
            · injection hm with hs hy hp2
              omega
            · exact absurd hm (not_mem_of_noCoord a2 slug year p')
            · exact absurd hm (ih (q + 1) (processArts w cfg slug articles st).1 (by omega))

theorem pageLoop_err (w : World) (cfg : Config) (slug : String) (year : Int) :
    ∀ (fuel p : Nat) (st : RunState),
      ((pageLoop w cfg slug year fuel p st).2.2 ≠ PageExit.fetchRaised →
        noCoordErrEv (pageLoop w cfg slug year fuel p st).2.1 = true)
      ∧ coordErrStops (pageLoop w cfg slug year fuel p st).2.1 = true := by
  intro fuel
  induction fuel with
  | zero => intro p st; exact ⟨fun _ => rfl, rfl⟩
  | succ f ih =>
    intro p st
    unfold pageLoop
    by_cases hl : limitHit cfg.limit st.found_count = true
    · simp [hl, noCoordErrEv, coordErrStops]
    · simp only [Bool.not_eq_true] at hl
      simp only [hl, Bool.false_eq_true, if_false]
      cases hls : w.listing slug year p with
      | none =>
        constructor
        · intro h
          exact absurd rfl h
        · simp [coordErrStops, isCoordErrEv, noCoordEv, isCoordEv]
      | some articles =>
        by_cases ha : articles = []
        · simp [ha, noCoordErrEv, isCoordErrEv, coordErrStops]
        · simp only [ha, if_false]
          obtain ⟨-, -, a3⟩ := processArts_acct w cfg slug articles st
          by_cases hl2 :
              limitHit cfg.limit (processArts w cfg slug articles st).1.found_count = true
          · simp only [hl2, if_true]
            constructor
            · intro _
              simp only [noCoordErrEv, List.all_cons, Bool.and_eq_true]
              refine ⟨by simp [isCoordErrEv], ?_⟩
              simpa [noCoordErrEv] using a3
            · simp only [coordErrStops]
              rw [if_neg (by simp [isCoordErrEv])]
              exact coordErrStops_of_noErr _ a3
          · simp only [hl2, Bool.false_eq_true, if_false]
            obtain ⟨ih1, ih2⟩ := ih (p + 1) (processArts w cfg slug articles st).1
            constructor
            · intro h
              simp only [noCoordErrEv, List.all_cons, List.all_append, Bool.and_eq_true]
              refine ⟨by simp [isCoordErrEv], ?_, ?_⟩
              · simpa [noCoordErrEv] using a3
              · simpa [noCoordErrEv] using ih1 h
            · simp only [coordErrStops]
              rw [if_neg (by simp [isCoordErrEv])]
              rw [coordErrStops_append_noErr _ _ a3]
              exact ih2

theorem pageLoop_entry (w : World) (cfg : Config) (slug : String) (year : Int)
    (fuel p : Nat) (st : RunState) (hf : 1 ≤ fuel)
    (hl : limitHit cfg.limit st.found_count = false) :
    Event.coord slug year p ∈ (pageLoop w cfg slug year fuel p st).2.1 := by
  cases fuel with
  | zero => omega
  | succ f =>
    unfold pageLoop
    simp only [hl, Bool.false_eq_true, if_false]
    cases hls : w.listing slug year p with
    | none => simp
    | some articles =>
      by_cases ha : articles = []
      · simp [ha]
      · simp only [ha, if_false]
        by_cases hl2 :
            limitHit cfg.limit (processArts w cfg slug articles st).1.found_count = true
        · simp [hl2]
        · simp [hl2]

end PapersCrawler

namespace PapersCrawler

theorem yearLoop_acct (w : World) (cfg : Config) (slug : String) (fuel : Nat) :
    ∀ (years : List Int) (st : RunState),
      (yearLoop w cfg slug fuel years st).1.found_count
        = st.found_count + persistsIn (yearLoop w cfg slug fuel years st).2.1 := by
  intro years
  induction years with
  | nil => intro st; simp [yearLoop, persistsIn]
  | cons y rest ih =>
    intro st
    unfold yearLoop
    by_cases hl : limitHit cfg.limit st.found_count = true
    · simp [hl, persistsIn]
    · simp only [Bool.not_eq_true] at hl
      simp only [hl, Bool.false_eq_true, if_false]
      have h1 := pageLoop_acct w cfg slug y fuel 1 st
      cases hex : (pageLoop w cfg slug y fuel 1 st).2.2 with
      | fetchRaised => simpa using h1
      | noArticles =>
        have h2 := ih (pageLoop w cfg slug y fuel 1 st).1
        simp only [persistsIn_append]
        simp only [persistsIn] at h1 h2 ⊢
        omega
      | limitStop =>
        have h2 := ih (pageLoop w cfg slug y fuel 1 st).1
        simp only [persistsIn_append]
        simp only [persistsIn] at h1 h2 ⊢
        omega
      | fuelOut =>
        have h2 := ih (pageLoop w cfg slug y fuel 1 st).1
        simp only [persistsIn_append]
        simp only [persistsIn] at h1 h2 ⊢
        omega

theorem yearLoop_bound (w : World) (cfg : Config) (slug : String) (fuel : Nat) (k : Int)
    (hcfg : cfg.limit = some k) (hk : k ≠ 0) :
    ∀ (years : List Int) (st : RunState), ((st.found_count : Int) ≤ k) →
      (((yearLoop w cfg slug fuel years st).1.found_count : Int) ≤ k) := by
  intro years
  induction years with
  | nil => intro st h; simpa [yearLoop] using h
  | cons y rest ih =>
    intro st h
    unfold yearLoop
    by_cases hl : limitHit cfg.limit st.found_count = true
    · simpa [hl] using h
    · simp only [Bool.not_eq_true] at hl
      simp only [hl, Bool.false_eq_true, if_false]
      have h1 := pageLoop_bound w cfg slug y k hcfg hk fuel 1 st h
      cases hex : (pageLoop w cfg slug y fuel 1 st).2.2 with
      | fetchRaised => simpa using h1
      | noArticles => exact ih (pageLoop w cfg slug y fuel 1 st).1 h1
      | limitStop => exact ih (pageLoop w cfg slug y fuel 1 st).1 h1
      | fuelOut => exact ih (pageLoop w cfg slug y fuel 1 st).1 h1

theorem yearLoop_guard (w : World) (cfg : Config) (slug : String) (fuel : Nat) (k : Int)
    (hcfg : cfg.limit = some k) (hk : k ≠ 0) :
    ∀ (years : List Int) (st : RunState),
      coordGuard k st.found_count (yearLoop w cfg slug fuel years st).2.1 = true := by
  intro years
  induction years with
  | nil => intro st; rfl
  | cons y rest ih =>
    intro st
    unfold yearLoop
    by_cases hl : limitHit cfg.limit st.found_count = true
    · simp [hl, coordGuard]
    · simp only [Bool.not_eq_true] at hl
      simp only [hl, Bool.false_eq_true, if_false]
      have h1 := pageLoop_guard w cfg slug y k hcfg hk fuel 1 st
      have ha := pageLoop_acct w cfg slug y fuel 1 st
      cases hex : (pageLoop w cfg slug y fuel 1 st).2.2 with
      | fetchRaised => simpa using h1
      | noArticles =>
        rw [coordGuard_append]
        simp only [Bool.and_eq_true]
        exact ⟨h1, by rw [← ha]; exact ih (pageLoop w cfg slug y fuel 1 st).1⟩
      | limitStop =>
        rw [coordGuard_append]
        simp only [Bool.and_eq_true]
        exact ⟨h1, by rw [← ha]; exact ih (pageLoop w cfg slug y fuel 1 st).1⟩
      | fuelOut =>
        rw [coordGuard_append]
        simp only [Bool.and_eq_true]
        exact ⟨h1, by rw [← ha]; exact ih (pageLoop w cfg slug y fuel 1 st).1⟩

end PapersCrawler

namespace PapersCrawler

theorem yearLoop_stop (w : World) (cfg : Config) (slug : String) (fuel : Nat)
    (s : String) (yy : Int) (p p' : Nat) (hsp : w.listing s yy p = some [])
    (h1p : 1 ≤ p) (hpp : p < p') :
    ∀ (years : List Int) (st : RunState),
      Event.coord s yy p' ∉ (yearLoop w cfg slug fuel years st).2.1 := by
  intro years
  induction years with
  | nil => intro st; simp [yearLoop]
  | cons y rest ih =>
    intro st
    have hone : Event.coord s yy p' ∉ (pageLoop w cfg slug y fuel 1 st).2.1 := by
      by_cases hsy : s = slug ∧ yy = y
      · obtain ⟨hs, hy⟩ := hsy
        rw [hs, hy] at hsp ⊢
        exact pageLoop_stop w cfg slug y p p' hsp hpp fuel 1 st h1p
      · intro hm
        obtain ⟨g1, g2, -⟩ := pageLoop_coords w cfg slug y fuel 1 st s yy p' hm
        exact hsy ⟨g1, g2⟩
    unfold yearLoop
    by_cases hl : limitHit cfg.limit st.found_count = true
    · simp [hl]
    · simp only [Bool.not_eq_true] at hl
      simp only [hl, Bool.false_eq_true, if_false]
      cases hex : (pageLoop w cfg slug y fuel 1 st).2.2 with
      | fetchRaised => simpa using hone
      | noArticles =>
        simp only [List.mem_append]
        intro hm
        rcases hm with hm | hm
        · exact hone hm
        · exact ih (pageLoop w cfg slug y fuel 1 st).1 hm
      | limitStop =>
        simp only [List.mem_append]
        intro hm
        rcases hm with hm | hm
        · exact hone hm
        · exact ih (pageLoop w cfg slug y fuel 1 st).1 hm
      | fuelOut =>
        simp only [List.mem_append]
        intro hm
        rcases hm with hm | hm
        · exact hone hm
        · exact ih (pageLoop w cfg slug y fuel 1 st).1 hm

theorem yearLoop_err (w : World) (cfg : Config) (slug : String) (fuel : Nat) :
    ∀ (years : List Int) (st : RunState),
      ((yearLoop w cfg slug fuel years st).2.2 = false →
        noCoordErrEv (yearLoop w cfg slug fuel years st).2.1 = true)
      ∧ coordErrStops (yearLoop w cfg slug fuel years st).2.1 = true := by
  intro years
  induction years with
  | nil => intro st; exact ⟨fun _ => rfl, rfl⟩
  | cons y rest ih =>
    intro st
    unfold yearLoop
    by_cases hl : limitHit cfg.limit st.found_count = true
    · simp [hl, noCoordErrEv, coordErrStops]
    · simp only [Bool.not_eq_true] at hl
      simp only [hl, Bool.false_eq_true, if_false]
      obtain ⟨pe1, pe2⟩ := pageLoop_err w cfg slug y fuel 1 st
      obtain ⟨ih1, ih2⟩ := ih (pageLoop w cfg slug y fuel 1 st).1
      cases hex : (pageLoop w cfg slug y fuel 1 st).2.2 with
      | fetchRaised =>
        refine ⟨?_, by simpa using pe2⟩
        intro h
        simp at h
      | noArticles =>
        rw [hex] at pe1
        have hno := pe1 (by simp)
        constructor
        · intro h
          rw [noCoordErrEv_append]
          simp only [Bool.and_eq_true]
          exact ⟨hno, ih1 h⟩
        · rw [coordErrStops_append_noErr _ _ hno]
          exact ih2
      | limitStop =>
        rw [hex] at pe1
        have hno := pe1 (by simp)
        constructor
        · intro h
          rw [noCoordErrEv_append]
          simp only [Bool.and_eq_true]
          exact ⟨hno, ih1 h⟩
        · rw [coordErrStops_append_noErr _ _ hno]
          exact ih2
      | fuelOut =>
        rw [hex] at pe1
        have hno := pe1 (by simp)
        constructor
        · intro h
          rw [noCoordErrEv_append]
          simp only [Bool.and_eq_true]
          exact ⟨hno, ih1 h⟩
        · rw [coordErrStops_append_noErr _ _ hno]
          exact ih2

end PapersCrawler

namespace PapersCrawler

theorem runJournal_acct (w : World) (cfg : Config) (fuel : Nat) (slug : String)
    (st : RunState) :
    (runJournal w cfg fuel slug st).1.found_count
      = st.found_count + persistsIn (runJournal w cfg fuel slug st).2 := by
  unfold runJournal
  have h := yearLoop_acct w cfg slug fuel (yearsList cfg.year_from cfg.year_to) st
  cases hex : (yearLoop w cfg slug fuel (yearsList cfg.year_from cfg.year_to) st).2.2 <;>
    simp only [hex, if_true, if_false, Bool.false_eq_true] <;>
    simp only [persistsIn, List.map_cons, List.map_append, List.sum_cons, List.sum_append,
      persistDelta, List.map_nil, List.sum_nil] <;>
    simp only [persistsIn] at h <;>
    omega

theorem runJournal_bound (w : World) (cfg : Config) (fuel : Nat) (slug : String) (k : Int)
    (hcfg : cfg.limit = some k) (hk : k ≠ 0) (st : RunState)
    (h : (st.found_count : Int) ≤ k) :
    ((runJournal w cfg fuel slug st).1.found_count : Int) ≤ k := by
  unfold runJournal
  exact yearLoop_bound w cfg slug fuel k hcfg hk (yearsList cfg.year_from cfg.year_to) st h

theorem runJournal_guard (w : World) (cfg : Config) (fuel : Nat) (slug : String) (k : Int)
    (hcfg : cfg.limit = some k) (hk : k ≠ 0) (st : RunState) :
    coordGuard k st.found_count (runJournal w cfg fuel slug st).2 = true := by
  unfold runJournal
  have h1 := yearLoop_guard w cfg slug fuel k hcfg hk (yearsList cfg.year_from cfg.year_to) st
  simp only [coordGuard, isCoordEv, Bool.not_false, Bool.true_or, Bool.true_and, persistDelta]
  rw [coordGuard_append]
  simp only [Bool.and_eq_true]
  refine ⟨by simpa using h1, ?_⟩
  apply coordGuard_of_noCoord
  cases (yearLoop w cfg slug fuel (yearsList cfg.year_from cfg.year_to) st).2.2 <;>
    simp [noCoordEv, isCoordEv]

theorem runJournal_stop (w : World) (cfg : Config) (fuel : Nat) (slug : String)
    (s : String) (yy : Int) (p p' : Nat) (hsp : w.listing s yy p = some [])
    (h1p : 1 ≤ p) (hpp : p < p') (st : RunState) :
    Event.coord s yy p' ∉ (runJournal w cfg fuel slug st).2 := by
  unfold runJournal
  intro hm
  simp only [List.mem_cons, List.mem_append] at hm
  rcases hm with hm | hm | hm
  · exact absurd hm (by simp)
  · exact yearLoop_stop w cfg slug fuel s yy p p' hsp h1p hpp
      (yearsList cfg.year_from cfg.year_to) st hm
  · cases (yearLoop w cfg slug fuel (yearsList cfg.year_from cfg.year_to) st).2.2 <;>
      simp_all

theorem runJournal_errStops (w : World) (cfg : Config) (fuel : Nat) (slug : String)
    (st : RunState) :
    coordErrStops (runJournal w cfg fuel slug st).2 = true := by
  unfold runJournal
  obtain ⟨y1, y2⟩ := yearLoop_err w cfg slug fuel (yearsList cfg.year_from cfg.year_to) st
  simp only [coordErrStops]
  rw [if_neg (by simp [isCoordErrEv])]
  apply coordErrStops_append_noCoord _ _ y2
  cases (yearLoop w cfg slug fuel (yearsList cfg.year_from cfg.year_to) st).2.2 <;>
    simp [noCoordEv, isCoordEv]

theorem runJournal_errLog (w : World) (cfg : Config) (fuel : Nat) (slug : String)
    (st : RunState) (s : String) (yy : Int) (p : Nat)
    (hm : Event.coordErr s yy p ∈ (runJournal w cfg fuel slug st).2) :
    Event.journalError slug ∈ (runJournal w cfg fuel slug st).2 := by
  unfold runJournal at hm ⊢
  obtain ⟨y1, y2⟩ := yearLoop_err w cfg slug fuel (yearsList cfg.year_from cfg.year_to) st
  simp only [List.mem_cons, List.mem_append] at hm ⊢
  cases hex : (yearLoop w cfg slug fuel (yearsList cfg.year_from cfg.year_to) st).2.2 with
  | true => simp [hex]
  | false =>
    exfalso
    have hno := y1 hex
    rcases hm with hm | hm | hm
    · exact absurd hm (by simp)
    · have := List.all_eq_true.mp hno _ hm
      simp [isCoordErrEv] at this
    · rw [hex] at hm
      simp at hm

end PapersCrawler

namespace PapersCrawler

theorem runJournals_inv (w : World) (cfg : Config) (fuel : Nat) (k : Int)
    (hcfg : cfg.limit = some k) (hk : k ≠ 0) :
    ∀ (slugs : List String) (st : RunState) (es : List Event),
      st.found_count = persistsIn es → coordGuard k 0 es = true →
      ((st.found_count : Int) ≤ k) →
      ((runJournals w cfg fuel slugs (st, es)).1.found_count
          = persistsIn (runJournals w cfg fuel slugs (st, es)).2
        ∧ coordGuard k 0 (runJournals w cfg fuel slugs (st, es)).2 = true
        ∧ (((runJournals w cfg fuel slugs (st, es)).1.found_count : Int) ≤ k)) := by
  intro slugs
  induction slugs with
  | nil => intro st es h1 h2 h3; exact ⟨h1, h2, h3⟩
  | cons slug rest ih =>
    intro st es h1 h2 h3
    unfold runJournals
    dsimp only
    apply ih
    · rw [runJournal_acct w cfg fuel slug st, persistsIn_append]
      omega
    · rw [coordGuard_append]
      simp only [Bool.and_eq_true]
      refine ⟨h2, ?_⟩
      have := runJournal_guard w cfg fuel slug k hcfg hk st
      rw [Nat.zero_add, ← h1]
      exact this
    · exact runJournal_bound w cfg fuel slug k hcfg hk st h3

theorem runJournals_stop (w : World) (cfg : Config) (fuel : Nat)
    (s : String) (yy : Int) (p p' : Nat) (hsp : w.listing s yy p = some [])
    (h1p : 1 ≤ p) (hpp : p < p') :
    ∀ (slugs : List String) (st : RunState) (es : List Event),
      Event.coord s yy p' ∉ es →
      Event.coord s yy p' ∉ (runJournals w cfg fuel slugs (st, es)).2 := by
  intro slugs
  induction slugs with
  | nil => intro st es h; exact h
  | cons slug rest ih =>
    intro st es h
    unfold runJournals
    dsimp only
    apply ih
    intro hm
    rcases List.mem_append.mp hm with hm | hm
    · exact h hm
    · exact runJournal_stop w cfg fuel slug s yy p p' hsp h1p hpp st hm

theorem runJournals_mono (w : World) (cfg : Config) (fuel : Nat) :
    ∀ (slugs : List String) (st : RunState) (es : List Event) (e : Event),
      e ∈ es → e ∈ (runJournals w cfg fuel slugs (st, es)).2 := by
  intro slugs
  induction slugs with
  | nil => intro st es e h; exact h
  | cons slug rest ih =>
    intro st es e h
    unfold runJournals
    dsimp only
    exact ih _ _ e (List.mem_append.mpr (Or.inl h))

theorem runJournals_starts (w : World) (cfg : Config) (fuel : Nat) :
    ∀ (slugs : List String) (st : RunState) (es : List Event) (s : String),
      s ∈ slugs →
      Event.journalStart s ∈ (runJournals w cfg fuel slugs (st, es)).2 := by
  intro slugs
  induction slugs with
  | nil => intro st es s h; exact absurd h (List.not_mem_nil s)
  | cons slug rest ih =>
    intro st es s h
    unfold runJournals
    dsimp only
    rcases List.mem_cons.mp h with h | h
    · subst h
      apply runJournals_mono
      apply List.mem_append.mpr
      right
      unfold runJournal
      exact List.mem_cons_self _ _
    · exact ih _ _ s h

end PapersCrawler

namespace PapersCrawler

theorem obsEvents_append (a b : List Event) :
    obsEvents (a ++ b) = obsEvents a ++ obsEvents b := by
  simp [obsEvents]

theorem processArts_cb (w : World) (cfg : Config) (slug : String)
    (p1 p2 : Option (String → String → Bool)) (t1 t2 : Option Bool) :
    ∀ (arts : List ArticleCard) (st : RunState),
      (processArts w { cfg with progress_callback := p1, total_progress_callback := t1 } slug arts st).1
        = (processArts w { cfg with progress_callback := p2, total_progress_callback := t2 } slug arts st).1
      ∧ obsEvents (processArts w { cfg with progress_callback := p1, total_progress_callback := t1 } slug arts st).2
        = obsEvents (processArts w { cfg with progress_callback := p2, total_progress_callback := t2 } slug arts st).2 := by
  intro arts
  induction arts with
  | nil => intro st; exact ⟨rfl, rfl⟩
  | cons a rest ih =>
    intro st
    unfold processArts
    by_cases hl : limitHit cfg.limit st.found_count = true
    · constructor <;>
        simp only [show ({ cfg with progress_callback := p1, total_progress_callback := t1 } : Config).limit = cfg.limit from rfl,
          show ({ cfg with progress_callback := p2, total_progress_callback := t2 } : Config).limit = cfg.limit from rfl,
          hl, if_true]
    · simp only [show ({ cfg with progress_callback := p1, total_progress_callback := t1 } : Config).limit = cfg.limit from rfl,
        show ({ cfg with progress_callback := p2, total_progress_callback := t2 } : Config).limit = cfg.limit from rfl,
        hl, Bool.false_eq_true, if_false]
      obtain ⟨g1, g2⟩ := processArticle_cb w cfg slug st a p1 p2 t1 t2
      obtain ⟨h1, h2⟩ := ih (processArticle w { cfg with progress_callback := p2, total_progress_callback := t2 } slug st a).1
      constructor
      · rw [g1, h1]
      · rw [obsEvents_append, obsEvents_append, g2, g1, h2]

theorem pageLoop_cb (w : World) (cfg : Config) (slug : String) (year : Int)
    (p1 p2 : Option (String → String → Bool)) (t1 t2 : Option Bool) :
    ∀ (fuel pg : Nat) (st : RunState),
      (pageLoop w { cfg with progress_callback := p1, total_progress_callback := t1 } slug year fuel pg st).1
        = (pageLoop w { cfg with progress_callback := p2, total_progress_callback := t2 } slug year fuel pg st).1
      ∧ obsEvents (pageLoop w { cfg with progress_callback := p1, total_progress_callback := t1 } slug year fuel pg st).2.1
        = obsEvents (pageLoop w { cfg with progress_callback := p2, total_progress_callback := t2 } slug year fuel pg st).2.1
      ∧ (pageLoop w { cfg with progress_callback := p1, total_progress_callback := t1 } slug year fuel pg st).2.2
        = (pageLoop w { cfg with progress_callback := p2, total_progress_callback := t2 } slug year fuel pg st).2.2 := by
  intro fuel
  induction fuel with
  | zero => intro pg st; exact ⟨rfl, rfl, rfl⟩
  | succ f ih =>
    intro pg st
    unfold pageLoop
    by_cases hl : limitHit cfg.limit st.found_count = true
    · simp only [show ({ cfg with progress_callback := p1, total_progress_callback := t1 } : Config).limit = cfg.limit from rfl,
        show ({ cfg with progress_callback := p2, total_progress_callback := t2 } : Config).limit = cfg.limit from rfl,
        hl, if_true]
      exact ⟨by trivial, by trivial, by trivial⟩
    · simp only [show ({ cfg with progress_callback := p1, total_progress_callback := t1 } : Config).limit = cfg.limit from rfl,
        show ({ cfg with progress_callback := p2, total_progress_callback := t2 } : Config).limit = cfg.limit from rfl,
        hl, Bool.false_eq_true, if_false]
      cases hls : w.listing slug year pg with
      | none => exact ⟨by trivial, by trivial, by trivial⟩
      | some articles =>
        by_cases ha : articles = []
        · simp only [ha, if_true]
          exact ⟨by trivial, by trivial, by trivial⟩
        · simp only [ha, if_false]
          obtain ⟨g1, g2⟩ := processArts_cb w cfg slug p1 p2 t1 t2 articles st
          obtain ⟨h1, h2, h3⟩ := ih (pg + 1)
            (processArts w { cfg with progress_callback := p2, total_progress_callback := t2 } slug articles st).1
          by_cases hl2 : limitHit cfg.limit
              (processArts w { cfg with progress_callback := p2, total_progress_callback := t2 } slug articles st).1.found_count = true
          · rw [g1]
            simp only [show ({ cfg with progress_callback := p1, total_progress_callback := t1 } : Config).limit = cfg.limit from rfl,
              show ({ cfg with progress_callback := p2, total_progress_callback := t2 } : Config).limit = cfg.limit from rfl,
              hl2, if_true]
            refine ⟨?_, ?_, ?_⟩
            · first | rfl | trivial
            · simp only [obsEvents, List.filter_cons]
              rw [show (!(Event.coord slug year pg == Event.stubError)) = true from rfl]
              simp only [if_true]
              simp only [obsEvents] at g2
              rw [g2]
            · first | rfl | trivial
          · rw [g1]
            simp only [show ({ cfg with progress_callback := p1, total_progress_callback := t1 } : Config).limit = cfg.limit from rfl,
              show ({ cfg with progress_callback := p2, total_progress_callback := t2 } : Config).limit = cfg.limit from rfl,
              hl2, Bool.false_eq_true, if_false]
            refine ⟨h1, ?_, h3⟩
            simp only [obsEvents, List.filter_cons]
            rw [show (!(Event.coord slug year pg == Event.stubError)) = true from rfl]
            simp only [if_true, List.filter_append]
            simp only [obsEvents] at g2 h2
            rw [g2, h2]

end PapersCrawler

namespace PapersCrawler

theorem yearLoop_cb (w : World) (cfg : Config) (slug : String) (fuel : Nat)
    (p1 p2 : Option (String → String → Bool)) (t1 t2 : Option Bool) :
    ∀ (years : List Int) (st : RunState),
      (yearLoop w { cfg with progress_callback := p1, total_progress_callback := t1 } slug fuel years st).1
        = (yearLoop w { cfg with progress_callback := p2, total_progress_callback := t2 } slug fuel years st).1
      ∧ obsEvents (yearLoop w { cfg with progress_callback := p1, total_progress_callback := t1 } slug fuel years st).2.1
        = obsEvents (yearLoop w { cfg with progress_callback := p2, total_progress_callback := t2 } slug fuel years st).2.1
      ∧ (yearLoop w { cfg with progress_callback := p1, total_progress_callback := t1 } slug fuel years st).2.2
        = (yearLoop w { cfg with progress_callback := p2, total_progress_callback := t2 } slug fuel years st).2.2 := by
  intro years
  induction years with
  | nil => intro st; exact ⟨rfl, rfl, rfl⟩
  | cons y rest ih =>
    intro st
    unfold yearLoop
    by_cases hl : limitHit cfg.limit st.found_count = true
    · simp only [show ({ cfg with progress_callback := p1, total_progress_callback := t1 } : Config).limit = cfg.limit from rfl,
        show ({ cfg with progress_callback := p2, total_progress_callback := t2 } : Config).limit = cfg.limit from rfl,
        hl, if_true]
      refine ⟨?_, ?_, ?_⟩ <;> first | rfl | trivial
    · simp only [show ({ cfg with progress_callback := p1, total_progress_callback := t1 } : Config).limit = cfg.limit from rfl,
        show ({ cfg with progress_callback := p2, total_progress_callback := t2 } : Config).limit = cfg.limit from rfl,
        hl, Bool.false_eq_true, if_false]
      obtain ⟨g1, g2, g3⟩ := pageLoop_cb w cfg slug y p1 p2 t1 t2 fuel 1 st
      obtain ⟨h1, h2, h3⟩ := ih
        (pageLoop w { cfg with progress_callback := p2, total_progress_callback := t2 } slug y fuel 1 st).1
      rw [g1, g3]
      cases hex :
          (pageLoop w { cfg with progress_callback := p2, total_progress_callback := t2 } slug y fuel 1 st).2.2 with
      | fetchRaised => exact ⟨rfl, g2, rfl⟩
      | noArticles =>
        refine ⟨h1, ?_, h3⟩
        rw [obsEvents_append, obsEvents_append, g2, h2]
      | limitStop =>
        refine ⟨h1, ?_, h3⟩
        rw [obsEvents_append, obsEvents_append, g2, h2]
      | fuelOut =>
        refine ⟨h1, ?_, h3⟩
        rw [obsEvents_append, obsEvents_append, g2, h2]

theorem runJournal_cb (w : World) (cfg : Config) (fuel : Nat) (slug : String)
    (p1 p2 : Option (String → String → Bool)) (t1 t2 : Option Bool) (st : RunState) :
    (runJournal w { cfg with progress_callback := p1, total_progress_callback := t1 } fuel slug st).1
      = (runJournal w { cfg with progress_callback := p2, total_progress_callback := t2 } fuel slug st).1
    ∧ obsEvents (runJournal w { cfg with progress_callback := p1, total_progress_callback := t1 } fuel slug st).2
      = obsEvents (runJournal w { cfg with progress_callback := p2, total_progress_callback := t2 } fuel slug st).2 := by
  unfold runJournal
  have hy : ({ cfg with progress_callback := p1, total_progress_callback := t1 } : Config).year_from = cfg.year_from := rfl
  obtain ⟨g1, g2, g3⟩ := yearLoop_cb w cfg slug fuel p1 p2 t1 t2
    (yearsList cfg.year_from cfg.year_to) st
  refine ⟨g1, ?_⟩
  simp only [obsEvents, List.filter_cons]
  rw [show (!(Event.journalStart slug == Event.stubError)) = true from rfl]
  simp only [if_true, List.filter_append]
  simp only [obsEvents] at g2
  rw [g2, g3]

theorem runJournals_cb (w : World) (cfg : Config) (fuel : Nat)
    (p1 p2 : Option (String → String → Bool)) (t1 t2 : Option Bool) :
    ∀ (slugs : List String) (st : RunState) (es es' : List Event),
      obsEvents es = obsEvents es' →
      (runJournals w { cfg with progress_callback := p1, total_progress_callback := t1 } fuel slugs (st, es)).1
        = (runJournals w { cfg with progress_callback := p2, total_progress_callback := t2 } fuel slugs (st, es')).1
      ∧ obsEvents (runJournals w { cfg with progress_callback := p1, total_progress_callback := t1 } fuel slugs (st, es)).2
        = obsEvents (runJournals w { cfg with progress_callback := p2, total_progress_callback := t2 } fuel slugs (st, es')).2 := by
  intro slugs
  induction slugs with
  | nil => intro st es es' h; exact ⟨rfl, h⟩
  | cons slug rest ih =>
    intro st es es' h
    unfold runJournals
    dsimp only
    obtain ⟨g1, g2⟩ := runJournal_cb w cfg fuel slug p1 p2 t1 t2 st
    rw [g1]
    apply ih
    rw [obsEvents_append, obsEvents_append, h, g2]

end PapersCrawler

namespace PapersCrawler

theorem limitHit_zero (n : Nat) : limitHit (some 0) n = false := rfl

theorem limitHit_none (n : Nat) : limitHit none n = false := rfl

theorem processArticle_limit0 (w : World) (cfg : Config) (slug : String)
    (st : RunState) (art : ArticleCard) :
    processArticle w { cfg with limit := some 0 } slug st art
      = processArticle w { cfg with limit := none } slug st art := rfl

theorem processArts_limit0 (w : World) (cfg : Config) (slug : String) :
    ∀ (arts : List ArticleCard) (st : RunState),
      processArts w { cfg with limit := some 0 } slug arts st
        = processArts w { cfg with limit := none } slug arts st := by
  intro arts
  induction arts with
  | nil => intro st; rfl
  | cons a rest ih =>
    intro st
    unfold processArts
    simp only [show ({ cfg with limit := some 0 } : Config).limit = some 0 from rfl,
      show ({ cfg with limit := none } : Config).limit = none from rfl,
      limitHit_zero, limitHit_none, Bool.false_eq_true, if_false]
    rw [processArticle_limit0, ih]

theorem pageLoop_limit0 (w : World) (cfg : Config) (slug : String) (year : Int) :
    ∀ (fuel pg : Nat) (st : RunState),
      pageLoop w { cfg with limit := some 0 } slug year fuel pg st
        = pageLoop w { cfg with limit := none } slug year fuel pg st := by
  intro fuel
  induction fuel with
  | zero => intro pg st; rfl
  | succ f ih =>
    intro pg st
    unfold pageLoop
    simp only [show ({ cfg with limit := some 0 } : Config).limit = some 0 from rfl,
      show ({ cfg with limit := none } : Config).limit = none from rfl,
      limitHit_zero, limitHit_none, Bool.false_eq_true, if_false]
    cases hls : w.listing slug year pg with
    | none => rfl
    | some articles =>
      by_cases ha : articles = []
      · simp [ha]
      · simp only [ha, if_false]
        rw [processArts_limit0, ih]

theorem yearLoop_limit0 (w : World) (cfg : Config) (slug : String) (fuel : Nat) :
    ∀ (years : List Int) (st : RunState),
      yearLoop w { cfg with limit := some 0 } slug fuel years st
        = yearLoop w { cfg with limit := none } slug fuel years st := by
  intro years
  induction years with
  | nil => intro st; rfl
  | cons y rest ih =>
    intro st
    unfold yearLoop
    simp only [show ({ cfg with limit := some 0 } : Config).limit = some 0 from rfl,
      show ({ cfg with limit := none } : Config).limit = none from rfl,
      limitHit_zero, limitHit_none, Bool.false_eq_true, if_false]
    rw [pageLoop_limit0, ih]

theorem runJournal_limit0 (w : World) (cfg : Config) (fuel : Nat) (slug : String)
    (st : RunState) :
    runJournal w { cfg with limit := some 0 } fuel slug st
      = runJournal w { cfg with limit := none } fuel slug st := by
  unfold runJournal
  rw [yearLoop_limit0]

theorem runJournals_limit0 (w : World) (cfg : Config) (fuel : Nat) :
    ∀ (slugs : List String) (acc : RunState × List Event),
      runJournals w { cfg with limit := some 0 } fuel slugs acc
        = runJournals w { cfg with limit := none } fuel slugs acc := by
  intro slugs
  induction slugs with
  | nil => intro acc; rfl
  | cons slug rest ih =>
    intro acc
    unfold runJournals
    rw [runJournal_limit0, ih]

end PapersCrawler

namespace PapersCrawler

/-- Claim C2 (amended to positive limits): for every configured limit
k ≥ 1, the number of persisted records never exceeds k (`found_count`
equals the number of persistence events and stays ≤ k), and every crawl
coordinate is navigated strictly before the persisted count reaches k
(`coordGuard`), across the whole run — all journals and years — so
reaching the limit halts coordinate generation within the one in-flight
coordinate. -/
theorem C2_amended_limit_enforcement (w : World) (cfg : Config) (fuel : Nat) (k : Int)
    (hcfg : cfg.limit = some k) (hk : 0 < k) (st : RunState) (es : List Event)
    (hok : crawl_text_nature_async w cfg fuel = .ok (st, es)) :
    (st.found_count : Int) ≤ k
    ∧ st.found_count = persistsIn es
    ∧ coordGuard k 0 es = true := by
  unfold crawl_text_nature_async at hok
  by_cases hs : cfg.journal_slugs = []
  · rw [if_pos hs] at hok
    injection hok with h
    injection h with h1 h2
    subst h1
    subst h2
    refine ⟨by simp [initState]; omega, rfl, rfl⟩
  · rw [if_neg hs] at hok
    have hinv := runJournals_inv w cfg fuel k hcfg (by omega) cfg.journal_slugs initState []
      rfl rfl (by simp [initState]; omega)
    cases ht : cfg.total_progress_callback with
    | none =>
      rw [ht] at hok
      injection hok with h
      rw [h] at hinv
      exact ⟨hinv.2.2, hinv.1, hinv.2.1⟩
    | some b =>
      cases b with
      | false =>
        rw [ht] at hok
        injection hok with h
        rw [h] at hinv
        exact ⟨hinv.2.2, hinv.1, hinv.2.1⟩
      | true =>
        rw [ht] at hok
        exact absurd hok (by simp)

/-- Witness for C2: the amended theorem applied to the concrete run of
`W1` under limit 1. -/
theorem C2_witness :
    (stL1.found_count : Int) ≤ 1
    ∧ stL1.found_count = persistsIn esL1
    ∧ coordGuard 1 0 esL1 = true :=
  C2_amended_limit_enforcement W1 cfgL1 6 1 rfl (by decide) stL1 esL1 (by decide)

end PapersCrawler

namespace PapersCrawler

/-- Claim C1 counterexample: in `W1` the same article identity (same URL)
appears on listing pages 1 and 2; the run persists the same path twice,
counts it twice, and navigates to the article page twice — the repeated
stub is not rejected before fetch, refuting the claimed per-run dedup. -/
theorem C1_counterexample :
    (crawl_text_nature_async W1 cfg1 6).toOption.map (fun r => r.1.saved_files)
      = some ["papers_nature/nphys/T_2023.json", "papers_nature/nphys/T_2023.json"]
    ∧ (crawl_text_nature_async W1 cfg1 6).toOption.map (fun r => r.1.found_count) = some 2
    ∧ (crawl_text_nature_async W1 cfg1 6).toOption.map
        (fun r => r.2.countP (fun e => e == Event.articleFetch "https://www.nature.com/articles/a1"))
      = some 2 := by
  refine ⟨by decide, by decide, by decide⟩

/-- Claim C1 (amended): the crawler keeps no per-run dedup state.  The
processing of a candidate card depends only on the card, the world, the
configuration and the current `found_count` — not on previously persisted
identities: at any two run states with equal `found_count`, the same card
yields the same events and the same appended state deltas, so a stub whose
identity was already persisted earlier in the run is fetched, persisted
(to the same path, overwriting) and counted again. -/
theorem C1_amended_no_dedup (w : World) (cfg : Config) (slug : String) (art : ArticleCard)
    (s1 s2 : RunState) (h : s1.found_count = s2.found_count) :
    ∃ ev fs oa md n,
      processArticle w cfg slug s1 art =
        ({ saved_files := s1.saved_files ++ fs
           open_access_articles := s1.open_access_articles ++ oa
           article_metadata := s1.article_metadata ++ md
           found_count := s1.found_count + n }, ev) ∧
      processArticle w cfg slug s2 art =
        ({ saved_files := s2.saved_files ++ fs
           open_access_articles := s2.open_access_articles ++ oa
           article_metadata := s2.article_metadata ++ md
           found_count := s2.found_count + n }, ev) :=
  processArticle_hist w cfg slug art s1 s2 h

/-- Witness for C1: the amended theorem applied at two concrete states,
the second of which already holds a persisted file. -/
theorem C1_witness :
    ∃ ev fs oa md n,
      processArticle W1 cfg1 "nphys" (⟨[], [], [], 0⟩ : RunState) cardA =
        ({ saved_files := ([] : List String) ++ fs
           open_access_articles := ([] : List String) ++ oa
           article_metadata := ([] : List (String × String × String)) ++ md
           found_count := 0 + n }, ev) ∧
      processArticle W1 cfg1 "nphys"
          (⟨["papers_nature/nphys/T_2023.json"], ["T"], [], 0⟩ : RunState) cardA =
        ({ saved_files := ["papers_nature/nphys/T_2023.json"] ++ fs
           open_access_articles := ["T"] ++ oa
           article_metadata := ([] : List (String × String × String)) ++ md
           found_count := 0 + n }, ev) :=
  C1_amended_no_dedup W1 cfg1 "nphys" cardA ⟨[], [], [], 0⟩
    ⟨["papers_nature/nphys/T_2023.json"], ["T"], [], 0⟩ rfl

/-- Claim C3 counterexample: in `W3` the listing fetch for journal "a",
year 2023, page 1 raises; the trace shows the error, no retry of the next
coordinate (a, 2023, 2) for the same target/year, and no coordinate for
the journal's next year (a, 2022, 1) — the remaining pages and years of
the journal are aborted, refuting coordinate-level recovery; journal "b"
still proceeds. -/
theorem C3_counterexample :
    (crawl_text_nature_async W3 cfg3 6).toOption.map
        (fun r => (decide (Event.coordErr "a" 2023 1 ∈ r.2),
                   decide (Event.coord "a" 2023 2 ∈ r.2),
                   decide (Event.coord "a" 2022 1 ∈ r.2),
                   decide (Event.coord "b" 2023 1 ∈ r.2),
                   decide (Event.journalError "a" ∈ r.2)))
      = some (true, false, false, true, true) := by
  decide

/-- Claim C3 (amended): a FetchError on a listing fetch aborts the rest of
that journal, not just the coordinate: after a listing-navigation error no
further coordinate of that journal is navigated (`coordErrStops`), the
error is logged at journal level (`journalError`), and the run is never
aborted — the crawl returns normally and every configured journal still
gets its browser session. -/
theorem C3_amended_journal_scope (w : World) (cfg : Config) (fuel : Nat)
    (slug : String) (st : RunState) (s : String) (y : Int) (p : Nat) :
    coordErrStops (runJournal w cfg fuel slug st).2 = true
    ∧ (Event.coordErr s y p ∈ (runJournal w cfg fuel slug st).2 →
        Event.journalError slug ∈ (runJournal w cfg fuel slug st).2)
    ∧ (cfg.total_progress_callback ≠ some true → slug ∈ cfg.journal_slugs →
        ∃ st' es', crawl_text_nature_async w cfg fuel = .ok (st', es')
          ∧ Event.journalStart slug ∈ es') := by
  refine ⟨runJournal_errStops w cfg fuel slug st,
    fun hm => runJournal_errLog w cfg fuel slug st s y p hm, ?_⟩
  intro htcb hmem
  have hne : cfg.journal_slugs ≠ [] := by
    intro h
    rw [h] at hmem
    exact absurd hmem (List.not_mem_nil slug)
  unfold crawl_text_nature_async
  rw [if_neg hne]
  cases ht : cfg.total_progress_callback with
  | none =>
    exact ⟨_, _, rfl, runJournals_starts w cfg fuel cfg.journal_slugs initState [] slug hmem⟩
  | some b =>
    cases b with
    | false =>
      exact ⟨_, _, rfl, runJournals_starts w cfg fuel cfg.journal_slugs initState [] slug hmem⟩
    | true => exact absurd ht htcb

/-- Witness for C3: the amended theorem applied to the concrete failing
world `W3`. -/
theorem C3_witness :
    coordErrStops (runJournal W3 cfg3 6 "a" initState).2 = true
    ∧ Event.journalError "a" ∈ (runJournal W3 cfg3 6 "a" initState).2
    ∧ ∃ st' es', crawl_text_nature_async W3 cfg3 6 = .ok (st', es')
        ∧ Event.journalStart "a" ∈ es' :=
  ⟨(C3_amended_journal_scope W3 cfg3 6 "a" initState "a" 2023 1).1,
   (C3_amended_journal_scope W3 cfg3 6 "a" initState "a" 2023 1).2.1 (by decide),
   (C3_amended_journal_scope W3 cfg3 6 "a" initState "a" 2023 1).2.2 (by decide) (by decide)⟩

/-- Claim C4 (confirmed): a stub whose article extraction fails (a
FetchError or any exception inside the extractor yields none) leaves the
run state untouched, so removing it from the listing changes nothing: the
stubs before and after it are processed and, if eligible, persisted
exactly as if the failing stub were absent, and the failing stub is never
counted. -/
theorem C4_stub_failure_isolated (w : World) (cfg : Config) (slug : String)
    (st : RunState) (l1 l2 : List ArticleCard) (bad : ArticleCard)
    (hfail : ∀ url, cardUrl bad = some url →
      extract_fulltext_nature_as_json w url = none) :
    (processArts w cfg slug (l1 ++ bad :: l2) st).1
      = (processArts w cfg slug (l1 ++ l2) st).1 :=
  processArts_mid_skip w cfg slug bad
    (processArticle_skip w cfg slug bad hfail) l1 l2 st

/-- Witness for C4: stub 2 of 3 fails to extract in `W4`; stubs 1 and 3
are persisted. -/
theorem C4_witness :
    (processArts W4 cfg1 "nphys" [cardG1, cardBad, cardG3] initState).1
      = (processArts W4 cfg1 "nphys" [cardG1, cardG3] initState).1
    ∧ (processArts W4 cfg1 "nphys" [cardG1, cardBad, cardG3] initState).1.saved_files
      = ["papers_nature/nphys/G1_2023.json", "papers_nature/nphys/G3_2023.json"] := by
  constructor
  · exact C4_stub_failure_isolated W4 cfg1 "nphys" initState [cardG1] [cardG3] cardBad
      (by intro url hu
          have h2 : cardUrl cardBad = some "https://www.nature.com/articles/bad" := by decide
          rw [h2] at hu
          injection hu with h3
          rw [← h3]
          decide)
  · decide

end PapersCrawler

namespace PapersCrawler

/-- Claim C5 (confirmed): when the listing fetch for (target, year) at
page P returns zero candidate stubs, no coordinate with page > P for that
(target, year) is ever navigated in the run; and a page with candidate
stubs none of which is eligible does not stop pagination — the next page
coordinate is still navigated. -/
theorem C5_pagination_termination (w : World) (cfg : Config) (fuel : Nat) :
    (∀ (st : RunState) (es : List Event) (s : String) (y : Int) (p p' : Nat),
      crawl_text_nature_async w cfg fuel = .ok (st, es) →
      w.listing s y p = some [] → 1 ≤ p → p < p' →
      Event.coord s y p' ∉ es)
    ∧ (∀ (slug : String) (y : Int) (p : Nat) (arts : List ArticleCard) (st0 : RunState),
      w.listing slug y p = some arts → arts ≠ [] →
      (∀ a ∈ arts, cardEligible cfg a = false) →
      limitHit cfg.limit st0.found_count = false →
      Event.coord slug y (p + 1) ∈ (pageLoop w cfg slug y (fuel + 2) p st0).2.1) := by
  constructor
  · intro st es s y p p' hok hsp h1p hpp
    unfold crawl_text_nature_async at hok
    by_cases hs : cfg.journal_slugs = []
    · rw [if_pos hs] at hok
      injection hok with h
      injection h with h1 h2
      subst h2
      simp
    · rw [if_neg hs] at hok
      cases ht : cfg.total_progress_callback with
      | none =>
        rw [ht] at hok
        injection hok with h
        have h2 := congrArg Prod.snd h
        dsimp only at h2
        rw [← h2]
        exact runJournals_stop w cfg fuel s y p p' hsp h1p hpp cfg.journal_slugs
          initState [] (by simp)
      | some b =>
        cases b with
        | false =>
          rw [ht] at hok
          injection hok with h
          have h2 := congrArg Prod.snd h
          dsimp only at h2
          rw [← h2]
          exact runJournals_stop w cfg fuel s y p p' hsp h1p hpp cfg.journal_slugs
            initState [] (by simp)
        | true =>
          rw [ht] at hok
          exact absurd hok (by simp)
  · intro slug y p arts st0 hls hne hinel hl
    have harts := processArts_ineligible w cfg slug arts st0 hinel
    show Event.coord slug y (p + 1) ∈ (pageLoop w cfg slug y (fuel + 1 + 1) p st0).2.1
    unfold pageLoop
    simp only [hl, Bool.false_eq_true, if_false, hls]
    simp only [hne, if_false]
    rw [harts]
    simp only [hl, Bool.false_eq_true, if_false]
    simp only [List.mem_cons, List.nil_append]
    right
    exact pageLoop_entry w cfg slug y (fuel + 1) (p + 1) st0 (by omega) hl

end PapersCrawler

namespace PapersCrawler

/-- Witness for C5: page 3 of `W1` is empty and page 4 is never
navigated; page 1 of `W5` holds only an ineligible stub and page 2 is
still navigated. -/
theorem C5_witness :
    Event.coord "nphys" 2023 4 ∉ esD
    ∧ Event.coord "nphys" 2023 2 ∈ (pageLoop W5 cfg1 "nphys" 2023 (6 + 2) 1 initState).2.1 :=
  ⟨(C5_pagination_termination W1 cfg1 6).1 stD esD "nphys" 2023 3 4 (by decide) (by decide)
      (by decide) (by decide),
   (C5_pagination_termination W5 cfg1 6).2 "nphys" 2023 1 [cardNoOa] initState (by decide)
      (by decide) (by decide) (by decide)⟩

/-- Claim C8 (confirmed): a candidate stub whose parsed year lies outside
`[year_from, year_to]`, or whose date string has no parsable year, is
rejected by acceptance: the run state is unchanged and no event — in
particular no article navigation — occurs, so it is never fetched,
extracted or counted. -/
theorem C8_year_filter (w : World) (cfg : Config) (slug : String) (st : RunState)
    (art : ArticleCard) (d : String) (hd : art.dateAttr = some d)
    (hrej : pyInt4 d = none
      ∨ ∃ y, pyInt4 d = some y ∧ ¬(cfg.year_from ≤ y ∧ y ≤ cfg.year_to)) :
    processArticle w cfg slug st art = (st, []) := by
  rcases processArticle_char w cfg slug st art with ⟨-, he⟩ |
    ⟨url, d', y, -, hd', hy, hge, hle, -, -⟩
  · exact he
  · rw [hd] at hd'
    injection hd' with hdd
    rw [← hdd] at hy
    rcases hrej with h | ⟨y', hy', hr⟩
    · rw [h] at hy
      exact absurd hy (by simp)
    · rw [hy'] at hy
      injection hy with hyy
      rw [← hyy] at hge hle
      exact absurd ⟨hge, hle⟩ hr

/-- Witness for C8: an out-of-range card and a card with an unparsable
date are both rejected without any effect. -/
theorem C8_witness :
    processArticle W1 cfg1 "nphys" initState cardOld = (initState, [])
    ∧ processArticle W1 cfg1 "nphys" initState cardNoDate = (initState, []) :=
  ⟨C8_year_filter W1 cfg1 "nphys" initState cardOld "1999-01-01" rfl
      (Or.inr ⟨1999, by decide, by decide⟩),
   C8_year_filter W1 cfg1 "nphys" initState cardNoDate "northern-exposure" rfl
      (Or.inl (by decide))⟩

end PapersCrawler

namespace PapersCrawler

theorem dictInsert_keys (m : List (String × JVal)) (k : String) (v : JVal) :
    (dictInsert m k v).map Prod.fst = m.map Prod.fst ∨
    ((dictInsert m k v).map Prod.fst = m.map Prod.fst ++ [k] ∧ k ∉ m.map Prod.fst) := by
  unfold dictInsert
  by_cases h : m.any (fun p => p.1 == k) = true
  · left
    simp only [h, if_true, List.map_map]
    apply List.map_congr_left
    intro p hp
    by_cases hk : p.1 = k
    · simp [Function.comp, hk]
    · simp [Function.comp, hk]
  · right
    rw [if_neg h, List.map_append]
    refine ⟨rfl, ?_⟩
    intro hmem
    obtain ⟨p, hp, he⟩ := List.mem_map.mp hmem
    exact h (List.any_eq_true.mpr ⟨p, hp, by simp [he]⟩)

theorem dictInsert_nodup {m : List (String × JVal)} {k : String} {v : JVal}
    (h : (m.map Prod.fst).Nodup) : ((dictInsert m k v).map Prod.fst).Nodup := by
  rcases dictInsert_keys m k v with h1 | ⟨h1, h2⟩ <;> rw [h1]
  · exact h
  · simp [List.nodup_append, h, h2]

theorem foldl_nodup_step {β : Type} (f : List (String × JVal) → β → List (String × JVal))
    (hf : ∀ j b, (j.map Prod.fst).Nodup → ((f j b).map Prod.fst).Nodup) :
    ∀ (l : List β) (j), (j.map Prod.fst).Nodup → ((List.foldl f j l).map Prod.fst).Nodup := by
  intro l
  induction l with
  | nil => intro j h; simpa using h
  | cons b rest ih => intro j h; simp only [List.foldl_cons]; exact ih _ (hf j b h)

theorem addAuthors_nodup {j a} (h : (j.map Prod.fst).Nodup) :
    ((addAuthors j a).map Prod.fst).Nodup := by
  unfold addAuthors
  cases a with
  | none => exact h
  | some items =>
    dsimp only
    split
    · exact h
    · exact dictInsert_nodup h

theorem addAbstract_nodup {j a} (h : (j.map Prod.fst).Nodup) :
    ((addAbstract j a).map Prod.fst).Nodup := by
  unfold addAbstract
  cases a with
  | none => exact h
  | some ps =>
    dsimp only
    split
    · exact h
    · exact dictInsert_nodup h

theorem addSections_nodup {j secs} (h : (j.map Prod.fst).Nodup) :
    ((addSections j secs).map Prod.fst).Nodup := by
  unfold addSections
  refine foldl_nodup_step _ ?_ secs j h
  intro j b hj
  dsimp only
  split
  · exact hj
  · split
    · exact hj
    · split
      · exact hj
      · exact dictInsert_nodup hj

theorem addFigures_nodup {j figs} (h : (j.map Prod.fst).Nodup) :
    ((addFigures j figs).map Prod.fst).Nodup := by
  unfold addFigures
  split
  · exact h
  · dsimp only
    split
    · exact h
    · exact dictInsert_nodup h

theorem addRefs_nodup {j r} (h : (j.map Prod.fst).Nodup) :
    ((addRefs j r).map Prod.fst).Nodup := by
  unfold addRefs
  cases r with
  | none => exact h
  | some items =>
    dsimp only
    split
    · exact h
    · exact dictInsert_nodup h

theorem buildJson_nodup (now url : String) (doc : NatureDoc) :
    ((buildJson now url doc).map Prod.fst).Nodup := by
  unfold buildJson
  apply addRefs_nodup
  apply addFigures_nodup
  apply addSections_nodup
  apply addAbstract_nodup
  split
  all_goals try apply dictInsert_nodup
  all_goals split
  all_goals try split
  all_goals try apply dictInsert_nodup
  all_goals apply addAuthors_nodup
  all_goals try split
  all_goals try apply dictInsert_nodup
  all_goals simp

theorem keys_sub_two {r : List (String × JVal)} (hnd : (r.map Prod.fst).Nodup)
    (hsub : ∀ kv ∈ r, kv.1 = "url" ∨ kv.1 = "extracted_at") : r.length ≤ 2 := by
  have hs : (r.map Prod.fst) ⊆ ["url", "extracted_at"] := by
    intro x hx
    obtain ⟨p, hp, he⟩ := List.mem_map.mp hx
    rcases hsub p hp with h | h <;> simp [← he, h]
  have h1 : (r.map Prod.fst).toFinset.card = (r.map Prod.fst).length :=
    List.toFinset_card_of_nodup hnd
  have h2 : (r.map Prod.fst).toFinset ⊆ (["url", "extracted_at"] : List String).toFinset := by
    intro x hx
    simp only [List.mem_toFinset] at *
    exact hs hx
  have h3 := Finset.card_le_card h2
  have h4 := (["url", "extracted_at"] : List String).toFinset_card_le
  have h5 : (r.map Prod.fst).length = r.length := List.length_map _ _
  have h6 : (["url", "extracted_at"] : List String).length = 2 := rfl
  omega

/-- Claim C6 (confirmed): `extract_fulltext_nature_as_json` never returns
an empty success.  Every non-none record contains an entry whose key is
neither "url" nor "extracted_at", and whenever the assembled mapping holds
nothing beyond those two bookkeeping entries the extractor returns none. -/
theorem C6_no_empty_success (w : World) (url : String) :
    (∀ r, extract_fulltext_nature_as_json w url = some r →
       ∃ kv, kv ∈ r ∧ kv.1 ≠ "url" ∧ kv.1 ≠ "extracted_at") ∧
    (∀ doc, w.pageContent url = some doc →
       (∀ kv ∈ buildJson w.now url doc, kv.1 = "url" ∨ kv.1 = "extracted_at") →
       extract_fulltext_nature_as_json w url = none) := by
  constructor
  · intro r hr
    unfold extract_fulltext_nature_as_json at hr
    cases hpc : w.pageContent url with
    | none => rw [hpc] at hr; exact absurd hr (by simp)
    | some doc =>
      rw [hpc] at hr
      dsimp only at hr
      by_cases hl : 2 < (buildJson w.now url doc).length
      · rw [if_pos hl] at hr
        injection hr with hr
        subst hr
        by_contra hcon
        push_neg at hcon
        have hsub : ∀ kv ∈ buildJson w.now url doc, kv.1 = "url" ∨ kv.1 = "extracted_at" := by
          intro kv hkv
          by_cases h : kv.1 = "url"
          · exact Or.inl h
          · exact Or.inr (hcon kv hkv h)
        have := keys_sub_two (buildJson_nodup w.now url doc) hsub
        omega
      · rw [if_neg hl] at hr
        exact absurd hr (by simp)
  · intro doc hpc hsub
    unfold extract_fulltext_nature_as_json
    rw [hpc]
    dsimp only
    rw [if_neg ?_]
    have := keys_sub_two (buildJson_nodup w.now url doc) hsub
    omega

end PapersCrawler

namespace PapersCrawler

/-- Witness for C6: a record extracted from a page with a title has a key
beyond the bookkeeping entries, and extraction from a content-free page
fails with none. -/
theorem C6_witness :
    (∃ kv, kv ∈ [("url", JVal.s "u"), ("extracted_at", JVal.s "t0"), ("title", JVal.s "T")]
        ∧ kv.1 ≠ "url" ∧ kv.1 ≠ "extracted_at")
    ∧ extract_fulltext_nature_as_json W6 "u" = none :=
  ⟨(C6_no_empty_success W1 "u").1
      [("url", JVal.s "u"), ("extracted_at", JVal.s "t0"), ("title", JVal.s "T")] (by decide),
   (C6_no_empty_success W6 "u").2 docEmpty rfl (by decide)⟩

end PapersCrawler

namespace PapersCrawler

/-- Claim C2 counterexample: with configured limit k = 0 the run persists
2 records, exceeding k — the limit property fails at k = 0 because the
truthiness guard disables the limit (see C10). -/
theorem C2_counterexample :
    (crawl_text_nature_async W1 cfgL0 6).toOption.map (fun r => r.1.found_count) = some 2
    ∧ ¬((2 : Int) ≤ 0) := by
  exact ⟨by decide, by decide⟩

/-- Claim C9 counterexample: in `W9` one eligible stub is processed (its
article page is navigated) but extraction fails, and the run performs zero
pacing sleeps — the `continue` after a failed extraction skips the delay,
refuting "regardless of outcome". -/
theorem C9_counterexample :
    (crawl_text_nature_async W9 cfg1 6).toOption.map
        (fun r => (sleepsIn r.2,
                   decide (Event.articleFetch "https://www.nature.com/articles/a1" ∈ r.2)))
      = some (0, true) := by
  decide

/-- Claim C9 (amended): the inter-article pacing delay runs exactly when
an eligible stub's extraction returns a record — on successful
persistence, on persistence failure, and on a caught callback exception
alike — but not when extraction returns failure (the `continue` skips the
delay) and not for ineligible stubs. -/
theorem C9_amended_pacing (w : World) (cfg : Config) (slug : String)
    (st : RunState) (art : ArticleCard) :
    sleepsIn (processArticle w cfg slug st art).2 =
      (match cardUrl art with
       | some url =>
         if cardEligible cfg art && !(extract_fulltext_nature_as_json w url).isNone
         then 1 else 0
       | none => 0) := by
  rcases processArticle_char w cfg slug st art with ⟨hel, he⟩ |
    ⟨url, d, y, hel, -, -, -, -, hu, hrest⟩
  · rw [he]
    cases hcu : cardUrl art with
    | none => rfl
    | some url => simp [hel, sleepsIn]
  · rw [hu, hel]
    dsimp only
    rcases hrest with ⟨hex, he⟩ | ⟨hne, title, fname, path, -, -, -, hsv⟩
    · rw [he, hex]
      simp [sleepsIn]
    · obtain ⟨j, hj⟩ := Option.ne_none_iff_exists'.mp hne
      rw [hj]
      rcases hsv with ⟨hs, he⟩ | ⟨hs, he⟩
      · rw [he]
        simp [sleepsIn]
      · rw [he]
        rcases hpc : cfg.progress_callback with _ | f
        · simp [sleepsIn]
        · by_cases hf : f fname path = true <;> simp [hf, sleepsIn]

/-- Claim C10 (confirmed): because every limit check first tests the
truthiness of `limit`, a configured limit of 0 disables the limit
entirely: the whole run — state and trace — is identical to a run with no
limit at all. -/
theorem C10_limit_zero_disabled (w : World) (cfg : Config) (fuel : Nat) :
    crawl_text_nature_async w { cfg with limit := some 0 } fuel
      = crawl_text_nature_async w { cfg with limit := none } fuel := by
  unfold crawl_text_nature_async
  simp only [show ({ cfg with limit := some 0 } : Config).journal_slugs = cfg.journal_slugs from rfl,
    show ({ cfg with limit := none } : Config).journal_slugs = cfg.journal_slugs from rfl,
    show ({ cfg with limit := some 0 } : Config).total_progress_callback = cfg.total_progress_callback from rfl,
    show ({ cfg with limit := none } : Config).total_progress_callback = cfg.total_progress_callback from rfl]
  by_cases hs : cfg.journal_slugs = []
  · rw [if_pos hs, if_pos hs]
  · rw [if_neg hs, if_neg hs, runJournals_limit0]

/-- Claim C7 (amended): the per-file progress callback is fire-and-forget
— an exception it raises is caught at the stub level after the record is
already persisted and counted — and, provided the coarse callback's single
unprotected invocation does not raise, the run completes and the run state
(persisted files, titles, counts) and the trace minus stub-level error
logs are identical for every choice of callbacks. -/
theorem C7_callbacks_best_effort (w : World) (cfg : Config) (fuel : Nat)
    (p1 p2 : Option (String → String → Bool)) (t1 t2 : Option Bool)
    (h1 : t1 ≠ some true) (h2 : t2 ≠ some true) :
    ∃ r1 r2,
      crawl_text_nature_async w
          { cfg with progress_callback := p1, total_progress_callback := t1 } fuel = .ok r1
      ∧ crawl_text_nature_async w
          { cfg with progress_callback := p2, total_progress_callback := t2 } fuel = .ok r2
      ∧ r1.1 = r2.1 ∧ obsEvents r1.2 = obsEvents r2.2 := by
  unfold crawl_text_nature_async
  simp only [show ({ cfg with progress_callback := p1, total_progress_callback := t1 } : Config).journal_slugs = cfg.journal_slugs from rfl,
    show ({ cfg with progress_callback := p2, total_progress_callback := t2 } : Config).journal_slugs = cfg.journal_slugs from rfl,
    show ({ cfg with progress_callback := p1, total_progress_callback := t1 } : Config).total_progress_callback = t1 from rfl,
    show ({ cfg with progress_callback := p2, total_progress_callback := t2 } : Config).total_progress_callback = t2 from rfl]
  by_cases hs : cfg.journal_slugs = []
  · rw [if_pos hs, if_pos hs]
    exact ⟨_, _, rfl, rfl, rfl, rfl⟩
  · rw [if_neg hs, if_neg hs]
    obtain ⟨g1, g2⟩ := runJournals_cb w cfg fuel p1 p2 t1 t2 cfg.journal_slugs initState [] [] rfl
    rcases t1 with _ | b1
    · rcases t2 with _ | b2
      · exact ⟨_, _, rfl, rfl, g1, g2⟩
      · cases b2
        · exact ⟨_, _, rfl, rfl, g1, g2⟩
        · exact absurd rfl h2
    · cases b1
      · rcases t2 with _ | b2
        · exact ⟨_, _, rfl, rfl, g1, g2⟩
        · cases b2
          · exact ⟨_, _, rfl, rfl, g1, g2⟩
          · exact absurd rfl h2
      · exact absurd rfl h1

/-- Witness for C7: a raising per-file callback and no callbacks at all
produce identical run states on `W1`. -/
theorem C7_witness :
    ∃ r1 r2,
      crawl_text_nature_async W1
          { cfg1 with progress_callback := some (fun _ _ => true),
                      total_progress_callback := some false } 6 = .ok r1
      ∧ crawl_text_nature_async W1
          { cfg1 with progress_callback := none, total_progress_callback := none } 6 = .ok r2
      ∧ r1.1 = r2.1 ∧ obsEvents r1.2 = obsEvents r2.2 :=
  C7_callbacks_best_effort W1 cfg1 6 (some (fun _ _ => true)) none (some false) none
    (by decide) (by decide)

/-- Claim C7 counterexample: a coarse progress callback that raises makes
the whole run fail (it is invoked unprotected at run start), while the
same run without it persists two records — so callback errors are not
always harmless, refuting the claim as stated. -/
theorem C7_counterexample :
    crawl_text_nature_async W1 { cfg1 with total_progress_callback := some true } 6 = .error ()
    ∧ (crawl_text_nature_async W1 cfg1 6).toOption.map (fun r => r.1.saved_files)
      = some ["papers_nature/nphys/T_2023.json", "papers_nature/nphys/T_2023.json"] := by
  exact ⟨rfl, by decide⟩

end PapersCrawler
